import Mathlib

/-!
Verification of the TFTP core of pxe-tools against its specification.

Shallow embedding of src/pxe_tools/utils.py, src/pxe_tools/tftp/proto.py and
src/pxe_tools/tftp/server.py.  Wire bytes are natural numbers (values 0..255 in the source); Python
exceptions are modelled with Except or explicit result constructors.
-/

namespace PxeTools

deriving instance DecidableEq for Except

/-- The exceptions the codec paths can raise. -/
inductive ProtoError where
  /-- struct.error from struct.unpack / struct.pack -/
  | structError
  /-- TypeError (raised by decode_tftp_datagram for an unknown opcode) -/
  | typeError
  /-- TFTPInvalidProtocolException -/
  | invalidProtocol
  /-- UnterminatedString from utils.unpack_c_str.  A non-ASCII byte before the
      NUL makes bytes.decode raise UnicodeDecodeError, a ValueError, which
      unpack_c_str also converts to UnterminatedString. -/
  | unterminated
  /-- AssertionError from the opcode assert statements -/
  | assertionError
  deriving DecidableEq, Repr

/-- Helper for utils.unpack_c_str: split a byte string at its first NUL.  The
    source locates the NUL with s.index; we return the bytes before it and the
    bytes after it, which is exactly what the source computes from the index
    (s[:i] and s[i+1:]). -/
def splitAtNul : List Nat → Option (List Nat × List Nat)
  | [] => none
  | b :: rest =>
    if b = 0 then some ([], rest)
    else (splitAtNul rest).map (fun p => (b :: p.1, p.2))

/-- utils.unpack_c_str: the bytes before the first NUL, decoded as ASCII.  No
    NUL, or a non-ASCII byte in the prefix, raises UnterminatedString.  The
    Python function returns the string and the NUL index; its callers only use
    the index to slice off the consumed prefix, so the remainder after the NUL
    is returned in its place. -/
def unpack_c_str (s : List Nat) : Except ProtoError (List Nat × List Nat) :=
  match splitAtNul s with
  | none => .error .unterminated
  | some (pre, post) =>
    if pre.all (fun b => b < 128) then .ok (pre, post) else .error .unterminated

theorem splitAtNul_post_length {s pre post : List Nat}
    (h : splitAtNul s = some (pre, post)) : post.length < s.length := by
  induction s generalizing pre post with
  | nil => simp [splitAtNul] at h
  | cons b rest ih =>
    simp only [splitAtNul] at h
    by_cases hb : b = 0
    · rw [if_pos hb] at h
      injection h with h2
      injection h2 with h3 h4
      subst h4
      simp
    · rw [if_neg hb] at h
      cases hsp : splitAtNul rest with
      | none => rw [hsp] at h; simp at h
      | some p =>
        obtain ⟨p1, p2⟩ := p
        rw [hsp] at h
        simp only [Option.map_some'] at h
        injection h with h2
        injection h2 with h3 h4
        subst h4
        have hlen := ih hsp
        simp only [List.length_cons]
        omega

theorem unpack_c_str_post_length {s pre post : List Nat}
    (h : unpack_c_str s = .ok (pre, post)) : post.length < s.length := by
  unfold unpack_c_str at h
  split at h
  · simp at h
  · rename_i p1 p2 heq
    split at h
    · injection h with h2
      injection h2 with h3 h4
      subst h4
      exact splitAtNul_post_length heq
    · simp at h

/-- utils.unpack_c_strs: repeatedly unpack NUL-terminated strings until the
    remaining input is empty. -/
def unpack_c_strs (s : List Nat) : Except ProtoError (List (List Nat)) :=
  if hs : s = [] then .ok []
  else
    match h : unpack_c_str s with
    | .error e => .error e
    | .ok (pre, post) => (unpack_c_strs post).map (fun strs => pre :: strs)
termination_by s.length
decreasing_by exact unpack_c_str_post_length h

/-- utils.pack_c_str: encode and append a NUL.  Packet strings are modelled as
    their ASCII byte lists, on which the utf-8 encoding of the source is the
    identity. -/
def pack_c_str (s : List Nat) : List Nat := s ++ [0]

/-- utils.pack_c_strs. -/
def pack_c_strs (strs : List (List Nat)) : List Nat := (strs.map pack_c_str).flatten

/-- struct.pack of one big-endian unsigned short (format '!H'); struct.error
    outside 0..65535 (Python ints do not wrap). -/
def pack_u16 (v : Nat) : Except ProtoError (List Nat) :=
  if v < 65536 then .ok [v / 256, v % 256] else .error .structError

/-- struct.unpack of '!H' applied to raw[:2]: needs at least two bytes. -/
def unpack_u16 (raw : List Nat) : Except ProtoError Nat :=
  match raw with
  | b0 :: b1 :: _ => .ok (b0 * 256 + b1)
  | _ => .error .structError

/-- struct.unpack of '!HH' applied to raw[:4]: needs at least four bytes. -/
def unpack_u16_pair (raw : List Nat) : Except ProtoError (Nat × Nat) :=
  match raw with
  | b0 :: b1 :: b2 :: b3 :: _ => .ok (b0 * 256 + b1, b2 * 256 + b3)
  | _ => .error .structError

/-- The six TFTP packet variants of proto.py.  A TFTPOption is represented by
    its (name, value) pair of ASCII strings, modelled as byte lists. -/
inductive Packet where
  | rrq (filename mode : List Nat) (options : List (List Nat × List Nat))
  | wrq (filename mode : List Nat) (options : List (List Nat × List Nat))
  | data (block_number : Nat) (payload : List Nat)
  | ack (block_number : Nat)
  | err (error_code : Nat) (error_message : List Nat)
  | oack (options : List (List Nat × List Nat))
  deriving DecidableEq, Repr

/-- TFTPOption.build_from_strs: pair up consecutive strings.  Both call sites
    first check that the list length is even. -/
def build_from_strs : List (List Nat) → List (List Nat × List Nat)
  | a :: b :: rest => (a, b) :: build_from_strs rest
  | _ => []

/-- The encoded options block: each TFTPOption.encode is
    pack_c_strs([name, value]), joined in order. -/
def encodeOptions (options : List (List Nat × List Nat)) : List Nat :=
  (options.map (fun op => pack_c_strs [op.1, op.2])).flatten

/-- The encode methods of the six packet classes in proto.py. -/
def Packet.encode : Packet → Except ProtoError (List Nat)
  | .rrq filename mode options => do
      let oc ← pack_u16 1
      .ok (oc ++ pack_c_strs [filename, mode] ++ encodeOptions options)
  | .wrq filename mode options => do
      let oc ← pack_u16 2
      .ok (oc ++ pack_c_strs [filename, mode] ++ encodeOptions options)
  | .data block_number payload => do
      let oc ← pack_u16 3
      let bn ← pack_u16 block_number
      .ok (oc ++ bn ++ payload)
  | .ack block_number => do
      let oc ← pack_u16 4
      let bn ← pack_u16 block_number
      .ok (oc ++ bn)
  | .err error_code error_message => do
      let oc ← pack_u16 5
      let ec ← pack_u16 error_code
      .ok (oc ++ ec ++ pack_c_str error_message)
  | .oack options => do
      let oc ← pack_u16 6
      .ok (oc ++ encodeOptions options)

/-- proto.encode_tftp_datagram (its isinstance assert always passes here). -/
def encode_tftp_datagram (p : Packet) : Except ProtoError (List Nat) := p.encode

/-- ReadRequestPacket.decode. -/
def ReadRequestPacket_decode (raw : List Nat) : Except ProtoError Packet := do
  let oc ← unpack_u16 raw
  if oc = 1 then
    match unpack_c_strs (raw.drop 2) with
    | .error e => .error e
    | .ok params =>
      if params.length < 2 ∨ params.length % 2 ≠ 0 then .error .invalidProtocol
      else
        match params with
        | filename :: mode :: rest => .ok (.rrq filename mode (build_from_strs rest))
        | _ => .error .invalidProtocol
  else .error .assertionError

/-- WriteRequestPacket.decode. -/
def WriteRequestPacket_decode (raw : List Nat) : Except ProtoError Packet := do
  let oc ← unpack_u16 raw
  if oc = 2 then
    match unpack_c_strs (raw.drop 2) with
    | .error e => .error e
    | .ok params =>
      if params.length < 2 ∨ params.length % 2 ≠ 0 then .error .invalidProtocol
      else
        match params with
        | filename :: mode :: rest => .ok (.wrq filename mode (build_from_strs rest))
        | _ => .error .invalidProtocol
  else .error .assertionError

/-- DataPacket.decode. -/
def DataPacket_decode (raw : List Nat) : Except ProtoError Packet := do
  let p ← unpack_u16_pair raw
  if p.1 = 3 then .ok (.data p.2 (raw.drop 4)) else .error .assertionError

/-- AcknowledgementPacket.decode. -/
def AcknowledgementPacket_decode (raw : List Nat) : Except ProtoError Packet := do
  let p ← unpack_u16_pair raw
  if p.1 = 4 then .ok (.ack p.2) else .error .assertionError

/-- ErrorPacket.decode. -/
def ErrorPacket_decode (raw : List Nat) : Except ProtoError Packet := do
  let p ← unpack_u16_pair raw
  if p.1 = 5 then
    match unpack_c_str (raw.drop 4) with
    | .error e => .error e
    | .ok (msg, _) => .ok (.err p.2 msg)
  else .error .assertionError

/-- OptionsAcknowledgementPacket.decode. -/
def OptionsAcknowledgementPacket_decode (raw : List Nat) : Except ProtoError Packet := do
  let oc ← unpack_u16 raw
  if oc = 6 then
    match unpack_c_strs (raw.drop 2) with
    | .error e => .error e
    | .ok params =>
      if params.length % 2 ≠ 0 then .error .invalidProtocol
      else .ok (.oack (build_from_strs params))
  else .error .assertionError

/-- proto.decode_tftp_datagram: dispatch on the first two bytes through
    TFTPOpCodes.OPCODE_MAP (opcodes 1..6); anything else raises TypeError. -/
def decode_tftp_datagram (raw : List Nat) : Except ProtoError Packet := do
  let opcode_value ← unpack_u16 raw
  if opcode_value = 1 then ReadRequestPacket_decode raw
  else if opcode_value = 2 then WriteRequestPacket_decode raw
  else if opcode_value = 3 then DataPacket_decode raw
  else if opcode_value = 4 then AcknowledgementPacket_decode raw
  else if opcode_value = 5 then ErrorPacket_decode raw
  else if opcode_value = 6 then OptionsAcknowledgementPacket_decode raw
  else .error .typeError

/-- A packet string field: ASCII and NUL-free.  The data model stores these
    strings NUL-terminated on the wire, so a string value contains no NUL. -/
def asciiStr (s : List Nat) : Prop := ∀ b ∈ s, 0 < b ∧ b < 128

instance : DecidablePred asciiStr := fun s => List.decidableBAll _ s

/-- Every option name and value is an ASCII string. -/
def optionsWf (options : List (List Nat × List Nat)) : Prop :=
  ∀ op ∈ options, asciiStr op.1 ∧ asciiStr op.2

instance : DecidablePred optionsWf := fun options => List.decidableBAll _ options

/-- A packet value as described by the data model: ASCII strings in the string
    fields and 16-bit values in the integer fields. -/
def Packet.wf : Packet → Prop
  | .rrq filename mode options => asciiStr filename ∧ asciiStr mode ∧ optionsWf options
  | .wrq filename mode options => asciiStr filename ∧ asciiStr mode ∧ optionsWf options
  | .data block_number _ => block_number < 65536
  | .ack block_number => block_number < 65536
  | .err error_code error_message => error_code < 65536 ∧ asciiStr error_message
  | .oack options => optionsWf options

instance : DecidablePred Packet.wf := fun p => by
  cases p <;> simp only [Packet.wf] <;> infer_instance

/-- proto.to_netascii on a Linux host, where os.linesep is the single byte LF.
    The regex substitution walks the payload left to right, replacing each LF
    with CR LF and each other CR with CR NUL. -/
def to_netascii : List Nat → List Nat
  | [] => []
  | b :: rest =>
    if b = 10 then 13 :: 10 :: to_netascii rest
    else if b = 13 then 13 :: 0 :: to_netascii rest
    else b :: to_netascii rest

/-- proto.from_netascii on a Linux host: the regex substitution scans left to
    right for the earliest CR LF or CR NUL, replaces it by LF or CR, and
    continues after the replaced pair (non-overlapping matches). -/
def from_netascii : List Nat → List Nat
  | [] => []
  | [b] => [b]
  | b :: c :: rest =>
    if b = 13 ∧ c = 10 then 10 :: from_netascii rest
    else if b = 13 ∧ c = 0 then 13 :: from_netascii rest
    else b :: from_netascii (c :: rest)

/-! ## Codec lemmas -/

theorem pack_c_strs_cons (s : List Nat) (rest : List (List Nat)) :
    pack_c_strs (s :: rest) = pack_c_str s ++ pack_c_strs rest := by
  simp [pack_c_strs]

theorem pack_c_strs_append (l1 l2 : List (List Nat)) :
    pack_c_strs (l1 ++ l2) = pack_c_strs l1 ++ pack_c_strs l2 := by
  simp [pack_c_strs]

theorem splitAtNul_append (s t : List Nat) (h : ∀ b ∈ s, b ≠ 0) :
    splitAtNul (s ++ 0 :: t) = some (s, t) := by
  induction s with
  | nil => simp [splitAtNul]
  | cons a s2 ih =>
    have ha : a ≠ 0 := h a (by simp)
    rw [List.cons_append]
    simp only [splitAtNul, if_neg ha, ih (fun b hb => h b (by simp [hb])), Option.map_some']

theorem unpack_c_str_append (s t : List Nat) (h : asciiStr s) :
    unpack_c_str (s ++ 0 :: t) = .ok (s, t) := by
  have hnul : ∀ b ∈ s, b ≠ 0 := fun b hb => Nat.pos_iff_ne_zero.mp (h b hb).1
  have hall : s.all (fun b => b < 128) = true := by
    rw [List.all_eq_true]
    intro b hb
    exact decide_eq_true (h b hb).2
  unfold unpack_c_str
  rw [splitAtNul_append s t hnul]
  simp [hall]

theorem unpack_c_strs_nil : unpack_c_strs [] = .ok [] := by
  unfold unpack_c_strs
  simp

theorem unpack_c_strs_cons_str (s t : List Nat) (h : asciiStr s) :
    unpack_c_strs (pack_c_str s ++ t) =
      (unpack_c_strs t).map (fun strs => s :: strs) := by
  have hne : ¬ (pack_c_str s ++ t = []) := by simp [pack_c_str]
  have hu : unpack_c_str (pack_c_str s ++ t) = .ok (s, t) := by
    have heq : pack_c_str s ++ t = s ++ 0 :: t := by simp [pack_c_str]
    rw [heq]
    exact unpack_c_str_append s t h
  rw [unpack_c_strs, dif_neg hne]
  split
  · rename_i e heq2
    rw [hu] at heq2
    simp at heq2
  · rename_i pre post heq2
    rw [hu] at heq2
    injection heq2 with h2
    injection h2 with h3 h4
    subst h3
    subst h4
    rfl

theorem unpack_c_strs_pack (strs : List (List Nat)) (h : ∀ s ∈ strs, asciiStr s)
    (t : List Nat) :
    unpack_c_strs (pack_c_strs strs ++ t) =
      (unpack_c_strs t).map (fun r => strs ++ r) := by
  induction strs with
  | nil =>
    simp only [pack_c_strs, List.map_nil, List.flatten_nil, List.nil_append]
    cases hu : unpack_c_strs t <;> simp [Except.map]
  | cons s rest ih =>
    rw [pack_c_strs_cons, List.append_assoc, unpack_c_strs_cons_str s _ (h s (by simp)),
      ih (fun x hx => h x (by simp [hx]))]
    cases unpack_c_strs t <;> simp [Except.map]

theorem unpack_c_strs_pack_nil (strs : List (List Nat)) (h : ∀ s ∈ strs, asciiStr s) :
    unpack_c_strs (pack_c_strs strs) = .ok strs := by
  have hx := unpack_c_strs_pack strs h []
  rw [List.append_nil] at hx
  rw [hx, unpack_c_strs_nil]
  simp [Except.map]

/-- The flattened [name, value, name, value, ...] string list of an options list. -/
def optionStrs : List (List Nat × List Nat) → List (List Nat)
  | [] => []
  | op :: rest => op.1 :: op.2 :: optionStrs rest

theorem encodeOptions_eq (options : List (List Nat × List Nat)) :
    encodeOptions options = pack_c_strs (optionStrs options) := by
  induction options with
  | nil => rfl
  | cons op rest ih =>
    have h1 : encodeOptions (op :: rest) = pack_c_strs [op.1, op.2] ++ encodeOptions rest := by
      simp only [encodeOptions, List.map_cons, List.flatten_cons]
    have h2 : pack_c_strs [op.1, op.2] = pack_c_str op.1 ++ (pack_c_str op.2 ++ []) := rfl
    have h3 : optionStrs (op :: rest) = op.1 :: op.2 :: optionStrs rest := rfl
    rw [h1, ih, h2, h3, pack_c_strs_cons, pack_c_strs_cons]
    simp [List.append_assoc]

theorem build_from_strs_optionStrs (options : List (List Nat × List Nat)) :
    build_from_strs (optionStrs options) = options := by
  induction options with
  | nil => rfl
  | cons op rest ih => simp [optionStrs, build_from_strs, ih]

theorem optionStrs_length (options : List (List Nat × List Nat)) :
    (optionStrs options).length = 2 * options.length := by
  induction options with
  | nil => rfl
  | cons op rest ih =>
    simp only [optionStrs, List.length_cons, ih, List.length_cons]
    omega

theorem optionStrs_ascii {options : List (List Nat × List Nat)} (h : optionsWf options) :
    ∀ s ∈ optionStrs options, asciiStr s := by
  induction options with
  | nil => simp [optionStrs]
  | cons op rest ih =>
    intro s hs
    simp only [optionStrs, List.mem_cons] at hs
    rcases hs with rfl | rfl | hs
    · exact (h op (by simp)).1
    · exact (h op (by simp)).2
    · exact ih (fun x hx => h x (by simp [hx])) s hs

theorem decode_rrq_ok (filename mode : List Nat) (options : List (List Nat × List Nat))
    (hf : asciiStr filename) (hm : asciiStr mode) (ho : optionsWf options) :
    decode_tftp_datagram (0 :: 1 :: pack_c_strs (filename :: mode :: optionStrs options)) =
      .ok (.rrq filename mode options) := by
  have hstrs : ∀ s ∈ filename :: mode :: optionStrs options, asciiStr s := by
    intro s hs
    rcases List.mem_cons.mp hs with rfl | hs2
    · exact hf
    rcases List.mem_cons.mp hs2 with rfl | hs3
    · exact hm
    · exact optionStrs_ascii ho s hs3
  have hun : unpack_c_strs (pack_c_strs (filename :: mode :: optionStrs options)) =
      .ok (filename :: mode :: optionStrs options) := unpack_c_strs_pack_nil _ hstrs
  have hlen : ¬((filename :: mode :: optionStrs options).length < 2 ∨
      (filename :: mode :: optionStrs options).length % 2 ≠ 0) := by
    simp only [List.length_cons, optionStrs_length]
    omega
  have h1 : decode_tftp_datagram (0 :: 1 :: pack_c_strs (filename :: mode :: optionStrs options)) =
      (match unpack_c_strs (pack_c_strs (filename :: mode :: optionStrs options)) with
       | .error e => .error e
       | .ok params =>
         if params.length < 2 ∨ params.length % 2 ≠ 0 then .error .invalidProtocol
         else match params with
           | f2 :: m2 :: rest => .ok (.rrq f2 m2 (build_from_strs rest))
           | _ => .error .invalidProtocol) := rfl
  rw [h1, hun]
  simp only [if_neg hlen, build_from_strs_optionStrs]

theorem decode_wrq_ok (filename mode : List Nat) (options : List (List Nat × List Nat))
    (hf : asciiStr filename) (hm : asciiStr mode) (ho : optionsWf options) :
    decode_tftp_datagram (0 :: 2 :: pack_c_strs (filename :: mode :: optionStrs options)) =
      .ok (.wrq filename mode options) := by
  have hstrs : ∀ s ∈ filename :: mode :: optionStrs options, asciiStr s := by
    intro s hs
    rcases List.mem_cons.mp hs with rfl | hs2
    · exact hf
    rcases List.mem_cons.mp hs2 with rfl | hs3
    · exact hm
    · exact optionStrs_ascii ho s hs3
  have hun : unpack_c_strs (pack_c_strs (filename :: mode :: optionStrs options)) =
      .ok (filename :: mode :: optionStrs options) := unpack_c_strs_pack_nil _ hstrs
  have hlen : ¬((filename :: mode :: optionStrs options).length < 2 ∨
      (filename :: mode :: optionStrs options).length % 2 ≠ 0) := by
    simp only [List.length_cons, optionStrs_length]
    omega
  have h1 : decode_tftp_datagram (0 :: 2 :: pack_c_strs (filename :: mode :: optionStrs options)) =
      (match unpack_c_strs (pack_c_strs (filename :: mode :: optionStrs options)) with
       | .error e => .error e
       | .ok params =>
         if params.length < 2 ∨ params.length % 2 ≠ 0 then .error .invalidProtocol
         else match params with
           | f2 :: m2 :: rest => .ok (.wrq f2 m2 (build_from_strs rest))
           | _ => .error .invalidProtocol) := rfl
  rw [h1, hun]
  simp only [if_neg hlen, build_from_strs_optionStrs]

theorem decode_oack_ok (options : List (List Nat × List Nat)) (ho : optionsWf options) :
    decode_tftp_datagram (0 :: 6 :: pack_c_strs (optionStrs options)) =
      .ok (.oack options) := by
  have hun : unpack_c_strs (pack_c_strs (optionStrs options)) =
      .ok (optionStrs options) := unpack_c_strs_pack_nil _ (optionStrs_ascii ho)
  have hlen : ¬((optionStrs options).length % 2 ≠ 0) := by
    simp only [optionStrs_length]
    omega
  have h1 : decode_tftp_datagram (0 :: 6 :: pack_c_strs (optionStrs options)) =
      (match unpack_c_strs (pack_c_strs (optionStrs options)) with
       | .error e => .error e
       | .ok params =>
         if params.length % 2 ≠ 0 then .error .invalidProtocol
         else .ok (.oack (build_from_strs params))) := rfl
  rw [h1, hun]
  simp only [if_neg hlen, build_from_strs_optionStrs]

theorem decode_data_ok (bn : Nat) (payload : List Nat) (h : bn < 65536) :
    decode_tftp_datagram (0 :: 3 :: bn / 256 :: bn % 256 :: payload) =
      .ok (.data bn payload) := by
  have harith : bn / 256 * 256 + bn % 256 = bn := by
    have := Nat.div_add_mod bn 256
    omega
  have h1 : decode_tftp_datagram (0 :: 3 :: bn / 256 :: bn % 256 :: payload) =
      .ok (.data (bn / 256 * 256 + bn % 256) payload) := rfl
  rw [h1, harith]

theorem decode_ack_ok (bn : Nat) (h : bn < 65536) :
    decode_tftp_datagram [0, 4, bn / 256, bn % 256] = .ok (.ack bn) := by
  have harith : bn / 256 * 256 + bn % 256 = bn := by
    have := Nat.div_add_mod bn 256
    omega
  have h1 : decode_tftp_datagram [0, 4, bn / 256, bn % 256] =
      .ok (.ack (bn / 256 * 256 + bn % 256)) := rfl
  rw [h1, harith]

theorem decode_err_ok (ec : Nat) (msg : List Nat) (hec : ec < 65536) (hm : asciiStr msg) :
    decode_tftp_datagram (0 :: 5 :: ec / 256 :: ec % 256 :: pack_c_str msg) =
      .ok (.err ec msg) := by
  have harith : ec / 256 * 256 + ec % 256 = ec := by
    have := Nat.div_add_mod ec 256
    omega
  have hmsg : unpack_c_str (pack_c_str msg) = .ok (msg, []) := by
    have heq : pack_c_str msg = msg ++ 0 :: [] := rfl
    rw [heq]
    exact unpack_c_str_append msg [] hm
  have h1 : decode_tftp_datagram (0 :: 5 :: ec / 256 :: ec % 256 :: pack_c_str msg) =
      (match unpack_c_str (pack_c_str msg) with
       | .error e => .error e
       | .ok (m2, _) => .ok (.err (ec / 256 * 256 + ec % 256) m2)) := rfl
  rw [h1, hmsg, harith]

/-- Helper: a well-formed packet encodes successfully and decodes back to itself. -/
theorem decode_encode_helper (p : Packet) (h : p.wf) :
    (encode_tftp_datagram p).bind decode_tftp_datagram = .ok p := by
  cases p with
  | rrq filename mode options =>
    obtain ⟨hf, hm, ho⟩ := h
    have he : encode_tftp_datagram (.rrq filename mode options) =
        .ok (0 :: 1 :: pack_c_strs (filename :: mode :: optionStrs options)) := by
      have h1 : encode_tftp_datagram (.rrq filename mode options) =
          .ok ([0, 1] ++ pack_c_strs [filename, mode] ++ encodeOptions options) := rfl
      rw [h1]
      congr 1
      rw [encodeOptions_eq,
        show pack_c_strs [filename, mode] = pack_c_str filename ++ (pack_c_str mode ++ []) from
          rfl,
        pack_c_strs_cons, pack_c_strs_cons]
      simp [List.append_assoc]
    rw [he]
    exact decode_rrq_ok filename mode options hf hm ho
  | wrq filename mode options =>
    obtain ⟨hf, hm, ho⟩ := h
    have he : encode_tftp_datagram (.wrq filename mode options) =
        .ok (0 :: 2 :: pack_c_strs (filename :: mode :: optionStrs options)) := by
      have h1 : encode_tftp_datagram (.wrq filename mode options) =
          .ok ([0, 2] ++ pack_c_strs [filename, mode] ++ encodeOptions options) := rfl
      rw [h1]
      congr 1
      rw [encodeOptions_eq,
        show pack_c_strs [filename, mode] = pack_c_str filename ++ (pack_c_str mode ++ []) from
          rfl,
        pack_c_strs_cons, pack_c_strs_cons]
      simp [List.append_assoc]
    rw [he]
    exact decode_wrq_ok filename mode options hf hm ho
  | data bn payload =>
    have he : encode_tftp_datagram (.data bn payload) =
        .ok (0 :: 3 :: bn / 256 :: bn % 256 :: payload) := by
      have hb : bn < 65536 := h
      have h1 : encode_tftp_datagram (.data bn payload) =
          (pack_u16 bn).bind (fun b => .ok ([0, 3] ++ b ++ payload)) := rfl
      rw [h1, pack_u16, if_pos hb]
      rfl
    rw [he]
    exact decode_data_ok bn payload h
  | ack bn =>
    have he : encode_tftp_datagram (.ack bn) = .ok [0, 4, bn / 256, bn % 256] := by
      have hb : bn < 65536 := h
      have h1 : encode_tftp_datagram (.ack bn) =
          (pack_u16 bn).bind (fun b => .ok ([0, 4] ++ b)) := rfl
      rw [h1, pack_u16, if_pos hb]
      rfl
    rw [he]
    exact decode_ack_ok bn h
  | err ec msg =>
    obtain ⟨hec, hm⟩ := h
    have he : encode_tftp_datagram (.err ec msg) =
        .ok (0 :: 5 :: ec / 256 :: ec % 256 :: pack_c_str msg) := by
      have h1 : encode_tftp_datagram (.err ec msg) =
          (pack_u16 ec).bind (fun e2 => .ok ([0, 5] ++ e2 ++ pack_c_str msg)) := rfl
      rw [h1, pack_u16, if_pos hec]
      rfl
    rw [he]
    exact decode_err_ok ec msg hec hm
  | oack options =>
    have he : encode_tftp_datagram (.oack options) =
        .ok (0 :: 6 :: pack_c_strs (optionStrs options)) := by
      have h1 : encode_tftp_datagram (.oack options) =
          .ok ([0, 6] ++ encodeOptions options) := rfl
      rw [h1, encodeOptions_eq]
      rfl
    rw [he]
    exact decode_oack_ok options h

/-- C1: for every TFTP packet value with ASCII string fields and 16-bit integer
    fields, decoding the bytes produced by encoding it yields the same packet:
    decode(encode(P)) == P. -/
theorem tftp_c1_decode_encode_roundtrip (p : Packet) (h : p.wf) :
    (encode_tftp_datagram p).bind decode_tftp_datagram = .ok p :=
  decode_encode_helper p h

/-- Witness for C1 at a concrete read request with one option. -/
theorem tftp_c1_witness :
    Packet.wf (.rrq [102, 111, 111] [111, 99] [([98], [99])]) ∧
    (encode_tftp_datagram (.rrq [102, 111, 111] [111, 99] [([98], [99])])).bind
        decode_tftp_datagram =
      .ok (.rrq [102, 111, 111] [111, 99] [([98], [99])]) :=
  ⟨by decide, tftp_c1_decode_encode_roundtrip _ (by decide)⟩

theorem splitAtNul_none {s : List Nat} (h : 0 ∉ s) : splitAtNul s = none := by
  induction s with
  | nil => rfl
  | cons b rest ih =>
    have hb : b ≠ 0 := fun hb => h (by simp [hb])
    rw [show splitAtNul (b :: rest) =
        (if b = 0 then some ([], rest) else (splitAtNul rest).map (fun p => (b :: p.1, p.2)))
      from rfl]
    rw [if_neg hb, ih (fun hx => h (by simp [hx]))]
    rfl

theorem decode_dispatch (b0 b1 : Nat) (t : List Nat) :
    decode_tftp_datagram (b0 :: b1 :: t) =
      (if b0 * 256 + b1 = 1 then ReadRequestPacket_decode (b0 :: b1 :: t)
       else if b0 * 256 + b1 = 2 then WriteRequestPacket_decode (b0 :: b1 :: t)
       else if b0 * 256 + b1 = 3 then DataPacket_decode (b0 :: b1 :: t)
       else if b0 * 256 + b1 = 4 then AcknowledgementPacket_decode (b0 :: b1 :: t)
       else if b0 * 256 + b1 = 5 then ErrorPacket_decode (b0 :: b1 :: t)
       else if b0 * 256 + b1 = 6 then OptionsAcknowledgementPacket_decode (b0 :: b1 :: t)
       else .error .typeError) := rfl

/-- C3: decode fails on every zero-length datagram, on every datagram whose
    leading 16-bit opcode is not in 1..6, on every RRQ or WRQ datagram whose
    remainder parses to fewer than two NUL-terminated strings or to an odd
    number of them, and on every ERROR datagram whose message is not
    NUL-terminated.  (The spec calls every such failure MalformedPacket; the
    source raises struct.error, TypeError, TFTPInvalidProtocolException or
    UnterminatedString respectively.) -/
theorem tftp_c3_decode_malformed (raw : List Nat)
    (h : raw = []
      ∨ (∃ b0 b1 t, raw = b0 :: b1 :: t ∧ (b0 * 256 + b1 = 0 ∨ 6 < b0 * 256 + b1))
      ∨ (∃ b0 b1 t params, raw = b0 :: b1 :: t ∧
           (b0 * 256 + b1 = 1 ∨ b0 * 256 + b1 = 2) ∧
           unpack_c_strs t = .ok params ∧
           (params.length < 2 ∨ params.length % 2 = 1))
      ∨ (∃ b0 b1 t, raw = b0 :: b1 :: t ∧ b0 * 256 + b1 = 5 ∧ 0 ∉ t.drop 2)) :
    ∃ e, decode_tftp_datagram raw = .error e := by
  rcases h with rfl | ⟨b0, b1, t, rfl, hoc⟩ | ⟨b0, b1, t, params, rfl, hoc, hun, hbad⟩ |
    ⟨b0, b1, t, rfl, hoc, hnul⟩
  · exact ⟨.structError, rfl⟩
  · refine ⟨.typeError, ?_⟩
    have hne : ∀ k : Nat, 1 ≤ k → k ≤ 6 → b0 * 256 + b1 ≠ k := by
      intro k hk1 hk2
      rcases hoc with h | h <;> omega
    rw [decode_dispatch, if_neg (hne 1 (by norm_num) (by norm_num)),
      if_neg (hne 2 (by norm_num) (by norm_num)), if_neg (hne 3 (by norm_num) (by norm_num)),
      if_neg (hne 4 (by norm_num) (by norm_num)), if_neg (hne 5 (by norm_num) (by norm_num)),
      if_neg (hne 6 (by norm_num) (by norm_num))]
  · have hcond : params.length < 2 ∨ params.length % 2 ≠ 0 := by
      rcases hbad with h | h
      · exact Or.inl h
      · exact Or.inr (by omega)
    rcases hoc with h1 | h2
    · refine ⟨.invalidProtocol, ?_⟩
      rw [decode_dispatch, if_pos h1]
      have hr : ReadRequestPacket_decode (b0 :: b1 :: t) =
          (if b0 * 256 + b1 = 1 then
            (match unpack_c_strs t with
             | .error e => .error e
             | .ok params =>
               if params.length < 2 ∨ params.length % 2 ≠ 0 then .error .invalidProtocol
               else match params with
                 | filename :: mode :: rest => .ok (.rrq filename mode (build_from_strs rest))
                 | _ => .error .invalidProtocol)
           else .error .assertionError) := rfl
      rw [hr, if_pos h1]
      split
      · rename_i e heq
        rw [hun] at heq
        simp at heq
      · rename_i params2 heq
        rw [hun] at heq
        injection heq with h5
        subst h5
        rw [if_pos hcond]
    · refine ⟨.invalidProtocol, ?_⟩
      rw [decode_dispatch, if_neg (show b0 * 256 + b1 ≠ 1 by omega), if_pos h2]
      have hr : WriteRequestPacket_decode (b0 :: b1 :: t) =
          (if b0 * 256 + b1 = 2 then
            (match unpack_c_strs t with
             | .error e => .error e
             | .ok params =>
               if params.length < 2 ∨ params.length % 2 ≠ 0 then .error .invalidProtocol
               else match params with
                 | filename :: mode :: rest => .ok (.wrq filename mode (build_from_strs rest))
                 | _ => .error .invalidProtocol)
           else .error .assertionError) := rfl
      rw [hr, if_pos h2]
      split
      · rename_i e heq
        rw [hun] at heq
        simp at heq
      · rename_i params2 heq
        rw [hun] at heq
        injection heq with h5
        subst h5
        rw [if_pos hcond]
  · rw [decode_dispatch, if_neg (show b0 * 256 + b1 ≠ 1 by omega),
      if_neg (show b0 * 256 + b1 ≠ 2 by omega), if_neg (show b0 * 256 + b1 ≠ 3 by omega),
      if_neg (show b0 * 256 + b1 ≠ 4 by omega), if_pos hoc]
    cases t with
    | nil => exact ⟨.structError, rfl⟩
    | cons b2 t2 =>
      cases t2 with
      | nil => exact ⟨.structError, rfl⟩
      | cons b3 rest =>
        refine ⟨.unterminated, ?_⟩
        have hr : ErrorPacket_decode (b0 :: b1 :: b2 :: b3 :: rest) =
            (if b0 * 256 + b1 = 5 then
              (match unpack_c_str rest with
               | .error e => .error e
               | .ok (msg, _) => .ok (.err (b2 * 256 + b3) msg))
             else .error .assertionError) := rfl
        have hnone : splitAtNul rest = none := splitAtNul_none (by simpa using hnul)
        have hu : unpack_c_str rest = .error .unterminated := by
          unfold unpack_c_str
          rw [hnone]
        rw [hr, if_pos hoc, hu]

/-- Witness for C3 at the zero-length datagram. -/
theorem tftp_c3_witness : ∃ e, decode_tftp_datagram [] = .error e :=
  tftp_c3_decode_malformed [] (Or.inl rfl)

/-! ## Netascii round trip -/

theorem from_netascii_cons (b : Nat) (l : List Nat) (hb : b ≠ 13) :
    from_netascii (b :: l) = b :: from_netascii l := by
  cases l with
  | nil => rfl
  | cons c rest =>
    have h1 : ¬(b = 13 ∧ c = 10) := fun hx => hb hx.1
    have h2 : ¬(b = 13 ∧ c = 0) := fun hx => hb hx.1
    simp only [from_netascii, if_neg h1, if_neg h2]

/-- Helper: on this code the netascii round trip holds for every byte string,
    because to_netascii always expands a lone CR to CR NUL. -/
theorem netascii_roundtrip_all (x : List Nat) :
    from_netascii (to_netascii x) = x := by
  induction x with
  | nil => rfl
  | cons b rest ih =>
    by_cases h10 : b = 10
    · subst h10
      have h1 : to_netascii (10 :: rest) = 13 :: 10 :: to_netascii rest := by
        simp [to_netascii]
      have h2 : from_netascii (13 :: 10 :: to_netascii rest) =
          10 :: from_netascii (to_netascii rest) := rfl
      rw [h1, h2, ih]
    · by_cases h13 : b = 13
      · subst h13
        have h1 : to_netascii (13 :: rest) = 13 :: 0 :: to_netascii rest := by
          simp [to_netascii]
        have h2 : from_netascii (13 :: 0 :: to_netascii rest) =
            13 :: from_netascii (to_netascii rest) := rfl
        rw [h1, h2, ih]
      · have h1 : to_netascii (b :: rest) = b :: to_netascii rest := by
          simp [to_netascii, h10, h13]
        rw [h1, from_netascii_cons b _ h13, ih]

/-- C2: for every byte string x that does not end in a bare CR (a trailing CR
    is always bare), from_netascii(to_netascii(x)) == x. -/
theorem tftp_c2_netascii_roundtrip (x : List Nat) (h : x.getLast? ≠ some 13) :
    from_netascii (to_netascii x) = x :=
  netascii_roundtrip_all x

/-- Witness for C2 at a concrete byte string containing CR LF. -/
theorem tftp_c2_witness :
    ([102, 13, 10, 111] : List Nat).getLast? ≠ some 13 ∧
    from_netascii (to_netascii [102, 13, 10, 111]) = [102, 13, 10, 111] :=
  ⟨by decide, tftp_c2_netascii_roundtrip _ (by decide)⟩

/-! ## The TFTP server session (server.py) -/

/-- ErrorPacket.ErrorCodes.NOT_DEFINED. -/
def ErrorCodes.NOT_DEFINED : Nat := 0

/-- ErrorPacket.ErrorCodes.ILLEGAL_OP. -/
def ErrorCodes.ILLEGAL_OP : Nat := 4

/-- TFTPServerSession.Modes. -/
inductive SessionMode where
  | read
  | write
  deriving DecidableEq, Repr

/-- A packet put on the session socket.  Error messages are kept as Lean
    strings; where the source sends str(e) of a caught exception, the model
    uses a short fixed placeholder text. -/
inductive OutPacket where
  | data (block_number : Nat) (payload : List Nat)
  | ack (block_number : Nat)
  | err (error_code : Nat) (message : String)
  | oack (options : List (List Nat × List Nat))
  deriving DecidableEq, Repr

/-- The mutable state of a TFTPServerSession.  The socket, timestamps and the
    negotiated timeout value are not modelled; the handlers are modelled by
    src (read side) and written (write side). -/
structure SessionState where
  remote_addr : Nat
  /-- The model read handler serves exactly these bytes:
      handler.read(start, stop) returns src[start:stop] (octet mode) and
      handler.length is src.length. -/
  src : List Nat
  /-- The model write handler appends each handler.write(data) here. -/
  written : List (List Nat)
  mode : Option SessionMode
  block_size : Nat
  window_size : Nat
  /-- Block number carried by _last_packet_received (only the READ branch of
      step assigns it, always to the ACK packet just decoded). -/
  last_packet_received : Option Nat
  last_block_num : Option Nat
  final_block_sent : Bool
  retries : Nat
  max_retries : Nat
  done : Bool
  deriving DecidableEq, Repr

/-- TFTPServerSession.__init__ with DEFAULT_BLOCK_SIZE = 512 and window size 1. -/
def sessionInit (remote_addr : Nat) (src : List Nat) (max_retries : Nat) : SessionState :=
  { remote_addr := remote_addr
    src := src
    written := []
    mode := none
    block_size := 512
    window_size := 1
    last_packet_received := none
    last_block_num := none
    final_block_sent := false
    retries := 0
    max_retries := max_retries
    done := false }

/-- TFTPServerSession._send_error: put an ERROR packet on the socket and mark
    the session done. -/
def sendError (st : SessionState) (error_code : Nat) (message : String) :
    SessionState × List OutPacket :=
  ({ st with done := true }, [.err error_code message])

/-- BasicReadHandler.read in octet mode: the byte range [start, stop) of the
    source, short (possibly empty) at end of file. -/
def handlerRead (src : List Nat) (start stop : Nat) : List Nat :=
  (src.drop start).take (stop - start)

/-- The for loop of _send_read_data over
    range(last_block_acknowledged, last_block_acknowledged + window_size):
    read block bn, send DataPacket(bn + 1, data), record last_block_num, and
    stop early after a short block (final_block_sent).  The Bool result is
    false when DataPacket(bn + 1, data).encode() raises struct.error (block
    number above 65535); the packets already sent are kept and last_block_num
    is not advanced for the failed block. -/
def sendReadDataLoop (st : SessionState) (bn : Nat) (count : Nat) (acc : List OutPacket) :
    SessionState × List OutPacket × Bool :=
  match count with
  | 0 => (st, acc, true)
  | count2 + 1 =>
    let dat := handlerRead st.src (bn * st.block_size) ((bn + 1) * st.block_size)
    if 65536 ≤ bn + 1 then (st, acc, false)
    else
      let st2 := { st with last_block_num := some (bn + 1) }
      let acc2 := acc ++ [.data (bn + 1) dat]
      if dat.length < st.block_size then
        ({ st2 with final_block_sent := true }, acc2, true)
      else
        sendReadDataLoop st2 (bn + 1) count2 acc2

/-- TFTPServerSession._send_read_data (a no-op unless the session is a READ
    session; the socket always exists in the modelled flows). -/
def send_read_data (st : SessionState) : SessionState × List OutPacket × Bool :=
  if st.mode = some .read then
    let last_block_acknowledged :=
      match st.last_packet_received with
      | some n => n
      | none => 0
    sendReadDataLoop st last_block_acknowledged st.window_size []
  else (st, [], true)

/-- TFTPServerSession._send_write_ack (a no-op unless a WRITE session).  Note
    that it acknowledges _last_packet_received, which the WRITE branch of step
    never assigns. -/
def send_write_ack (st : SessionState) : SessionState × List OutPacket :=
  if st.mode = some .write then
    let block_to_acknowledge :=
      match st.last_packet_received with
      | some n => n
      | none => 0
    ({ st with last_block_num := some block_to_acknowledge }, [.ack block_to_acknowledge])
  else (st, [])

/-- The result of running one session operation: a normal return carrying the
    packets put on the wire, or an exception propagating to the caller. -/
inductive StepResult where
  | ok (st : SessionState) (out : List OutPacket)
  | raised (st : SessionState) (out : List OutPacket)
  deriving DecidableEq, Repr

/-- TFTPServerSession.step.  The datagram arrives together with its source
    address; `assert address == self.remote_addr` stands before the try block,
    so its AssertionError propagates (.raised).  Inside the try, any decode
    failure or other exception is converted by the final
    `except BaseException` into ERROR(NOT_DEFINED, str(e)).  The READ branch
    compares the ACK block number against _last_packet_received, which it has
    just set to the same packet, so that comparison is n >= n. -/
def step (st : SessionState) (source : Nat) (raw : List Nat) : StepResult :=
  if st.done then .ok st []
  else if source = st.remote_addr then
    let st0 := { st with retries := 0 }
    match decode_tftp_datagram raw with
    | .error _ =>
      let r := sendError st0 ErrorCodes.NOT_DEFINED ("decode raised")
      .ok r.1 r.2
    | .ok pkt =>
      match st0.mode with
      | some .read =>
        match pkt with
        | .ack n =>
          let st1 := { st0 with last_packet_received := some n }
          if st1.final_block_sent ∧ st1.last_block_num = some n then
            .ok { st1 with done := true } []
          else if n ≥ (match st1.last_packet_received with | some m => m | none => 0) then
            match send_read_data st1 with
            | (st2, out, true) => .ok st2 out
            | (st2, out, false) =>
              let r := sendError st2 ErrorCodes.NOT_DEFINED ("struct error")
              .ok r.1 (out ++ r.2)
          else
            let r := sendError st1 ErrorCodes.ILLEGAL_OP ("Received invalid ACK packet.")
            .ok r.1 r.2
        | _ =>
          let r := sendError st0 ErrorCodes.ILLEGAL_OP ("Did not receive expected ACK packet.")
          .ok r.1 r.2
      | some .write =>
        match pkt with
        | .data n payload =>
          match st0.last_block_num with
          | none =>
            -- self._last_block_num + 1 on None raises TypeError, caught by
            -- except BaseException
            let r := sendError st0 ErrorCodes.NOT_DEFINED ("unsupported operand")
            .ok r.1 r.2
          | some lb =>
            if n = lb + 1 then
              let st1 := { st0 with written := st0.written ++ [payload] }
              let r := send_write_ack st1
              .ok r.1 r.2
            else .ok st0 []
        | _ =>
          let r := sendError st0 ErrorCodes.ILLEGAL_OP ("Did not receive expected DATA packet.")
          .ok r.1 r.2
      | none =>
        -- `assert False` inside the try: converted to ERROR(NOT_DEFINED)
        let r := sendError st0 ErrorCodes.NOT_DEFINED ("assert false")
        .ok r.1 r.2
  else .raised st []

/-- Python str.lower for an ASCII byte. -/
def lowerByte (b : Nat) : Nat := if 65 ≤ b ∧ b ≤ 90 then b + 32 else b

/-- Python str.lower for an ASCII byte string. -/
def lowerBytes (s : List Nat) : List Nat := s.map lowerByte

/-- The byte list of an ASCII string literal. -/
def strBytes (s : String) : List Nat := s.toList.map Char.toNat

/-- Python int() restricted to the shapes used here: an optional minus sign
    followed by decimal digits (whitespace, a plus sign and underscores are
    not modelled).  A none result models int() raising ValueError. -/
def parseDecimal (s : List Nat) : Option Nat :=
  if s ≠ [] ∧ s.all (fun b => 48 ≤ b ∧ b ≤ 57) then
    some (s.foldl (fun acc b => acc * 10 + (b - 48)) 0)
  else none

/-- See parseDecimal. -/
def parseInt (s : List Nat) : Option Int :=
  match s with
  | 45 :: rest => (parseDecimal rest).map (fun n => -(n : Int))
  | _ => (parseDecimal s).map (fun n => (n : Int))

/-- TFTPServerSession.KnownOptions.BLKSIZE. -/
def KnownOptions.BLKSIZE : List Nat := strBytes ("blksize")

/-- TFTPServerSession.KnownOptions.TIMEOUT. -/
def KnownOptions.TIMEOUT : List Nat := strBytes ("timeout")

/-- TFTPServerSession.KnownOptions.TSIZE. -/
def KnownOptions.TSIZE : List Nat := strBytes ("tsize")

/-- TFTPServerSession.KnownOptions.WINDOWSIZE. -/
def KnownOptions.WINDOWSIZE : List Nat := strBytes ("windowsize")

/-- The option loop of setup for a read request.  On an out-of-range value the
    source calls _send_error (sending ERROR and setting done) and then simply
    continues with the next option; an int() failure raises out of the loop
    (the .error result carries the state and the output sent so far, which the
    enclosing except handler of setup receives).  Unknown options, and tsize
    (where the model handler always knows its length), follow the source. -/
def setupReadOptionsLoop (st : SessionState) (opts : List (List Nat × List Nat))
    (usable : List (List Nat × List Nat)) (out : List OutPacket) :
    Except (SessionState × List OutPacket)
      (SessionState × List (List Nat × List Nat) × List OutPacket) :=
  match opts with
  | [] => .ok (st, usable, out)
  | opt :: rest =>
    if lowerBytes opt.1 = KnownOptions.BLKSIZE then
      match parseInt opt.2 with
      | none => .error (st, out)
      | some v =>
        if 8 ≤ v ∧ v ≤ 65464 then
          setupReadOptionsLoop { st with block_size := v.toNat } rest (usable ++ [opt]) out
        else
          let r := sendError st ErrorCodes.ILLEGAL_OP
            ("Invalid requested block size: " ++ toString v)
          setupReadOptionsLoop r.1 rest usable (out ++ r.2)
    else if lowerBytes opt.1 = KnownOptions.TIMEOUT then
      match parseInt opt.2 with
      | none => .error (st, out)
      | some v =>
        if 1 ≤ v ∧ v ≤ 255 then
          -- the timeout value and the socket timeout are not otherwise modelled
          setupReadOptionsLoop st rest (usable ++ [opt]) out
        else
          let r := sendError st ErrorCodes.ILLEGAL_OP ("Invalid timeout: " ++ toString v)
          setupReadOptionsLoop r.1 rest usable (out ++ r.2)
    else if lowerBytes opt.1 = KnownOptions.TSIZE then
      setupReadOptionsLoop st rest
        (usable ++ [(KnownOptions.TSIZE, strBytes (toString st.src.length))]) out
    else if lowerBytes opt.1 = KnownOptions.WINDOWSIZE then
      match parseInt opt.2 with
      | none => .error (st, out)
      | some v =>
        if 1 ≤ v ∧ v ≤ 65535 then
          setupReadOptionsLoop { st with window_size := v.toNat } rest (usable ++ [opt]) out
        else
          let r := sendError st ErrorCodes.ILLEGAL_OP
            ("Invalid requested window size: " ++ toString v)
          setupReadOptionsLoop r.1 rest usable (out ++ r.2)
    else
      setupReadOptionsLoop st rest usable out

/-- The option loop of setup for a write request (blksize and timeout only). -/
def setupWriteOptionsLoop (st : SessionState) (opts : List (List Nat × List Nat))
    (usable : List (List Nat × List Nat)) (out : List OutPacket) :
    Except (SessionState × List OutPacket)
      (SessionState × List (List Nat × List Nat) × List OutPacket) :=
  match opts with
  | [] => .ok (st, usable, out)
  | opt :: rest =>
    if lowerBytes opt.1 = KnownOptions.BLKSIZE then
      match parseInt opt.2 with
      | none => .error (st, out)
      | some v =>
        if 8 ≤ v ∧ v ≤ 65464 then
          setupWriteOptionsLoop { st with block_size := v.toNat } rest (usable ++ [opt]) out
        else
          let r := sendError st ErrorCodes.ILLEGAL_OP
            ("Invalid requested block size: " ++ toString v)
          setupWriteOptionsLoop r.1 rest usable (out ++ r.2)
    else if lowerBytes opt.1 = KnownOptions.TIMEOUT then
      match parseInt opt.2 with
      | none => .error (st, out)
      | some v =>
        if 1 ≤ v ∧ v ≤ 255 then
          setupWriteOptionsLoop st rest (usable ++ [opt]) out
        else
          let r := sendError st ErrorCodes.ILLEGAL_OP ("Invalid timeout: " ++ toString v)
          setupWriteOptionsLoop r.1 rest usable (out ++ r.2)
    else
      setupWriteOptionsLoop st rest usable out

/-- TFTPServerSession.setup.  A decode failure of the initial request happens
    in the outer try whose handler closes the socket and re-raises, hence
    .raised; the model handler factory and handler.open always succeed.  With
    options present, the option loop runs and an OACK with the accepted
    options is then sent unconditionally (even when _send_error already ran);
    with no options, the first DATA window (RRQ) or ACK(0) (WRQ) is sent.
    Exceptions inside the inner try are converted to ERROR packets. -/
def setup (st : SessionState) (raw : List Nat) : StepResult :=
  match decode_tftp_datagram raw with
  | .error _ => .raised st []
  | .ok (.rrq _filename _mode options) =>
    let st1 := { st with mode := some SessionMode.read }
    if options = [] then
      match send_read_data st1 with
      | (st2, out, true) => .ok st2 out
      | (st2, out, false) =>
        let r := sendError st2 ErrorCodes.NOT_DEFINED ("struct error")
        .ok r.1 (out ++ r.2)
    else
      match setupReadOptionsLoop st1 options [] [] with
      | .error (st2, out) =>
        let r := sendError st2 ErrorCodes.NOT_DEFINED ("int raised")
        .ok r.1 (out ++ r.2)
      | .ok (st2, usable, out) => .ok st2 (out ++ [.oack usable])
  | .ok (.wrq _filename _mode options) =>
    let st1 := { st with mode := some SessionMode.write }
    if options = [] then
      let r := send_write_ack st1
      .ok r.1 r.2
    else
      match setupWriteOptionsLoop st1 options [] [] with
      | .error (st2, out) =>
        let r := sendError st2 ErrorCodes.NOT_DEFINED ("int raised")
        .ok r.1 (out ++ r.2)
      | .ok (st2, usable, out) => .ok st2 (out ++ [.oack usable])
  | .ok _ =>
    let r := sendError st ErrorCodes.ILLEGAL_OP ("Session not started with RRQ or WRQ!")
    .ok r.1 r.2

/-- TFTPServerSession.timeout_handler.  In the retry branch the debug log line
    evaluates self._last_packet_received.block_number before anything else,
    which raises AttributeError when no packet has been received yet; the try
    only catches ConnectionRefusedError, so that error (and a struct.error
    from re-encoding a too-large block number) propagates to the caller
    (.raised).  The retry branch always calls _send_read_data, which is a
    no-op for WRITE sessions. -/
def timeout_handler (st : SessionState) : StepResult :=
  if st.retries < st.max_retries then
    match st.last_packet_received with
    | none => .raised st []
    | some _ =>
      let st1 := { st with retries := st.retries + 1 }
      match send_read_data st1 with
      | (st2, out, true) => .ok st2 out
      | (st2, out, false) => .raised st2 out
  else
    let r := sendError st ErrorCodes.NOT_DEFINED ("Session timed out.")
    .ok r.1 r.2

/-- The wire bytes of ACK(n) as a client sends them. -/
def ackBytes (n : Nat) : List Nat := [0, 4, n / 256, n % 256]

/-- The wire bytes of DATA(n, payload) as a client sends them. -/
def dataBytes (n : Nat) (payload : List Nat) : List Nat :=
  0 :: 3 :: n / 256 :: n % 256 :: payload

/-- A client that acknowledges every block: send ACK(ackNum), then keep
    acknowledging the last block number the session has put on the wire,
    until the session is done.  Collects everything the session sends. -/
def runRead (st : SessionState) (ackNum : Nat) (fuel : Nat) : List OutPacket :=
  match fuel with
  | 0 => []
  | fuel2 + 1 =>
    match step st st.remote_addr (ackBytes ackNum) with
    | .raised _ out => out
    | .ok st2 out =>
      if st2.done then out
      else
        match st2.last_block_num with
        | none => out
        | some lb => out ++ runRead st2 lb fuel2

/-- A full RRQ session: setup on the initial request, then the acknowledging
    client (the first ACK is ACK(0), acknowledging the OACK when options were
    present). -/
def sessionRun (st : SessionState) (raw : List Nat) (fuel : Nat) : List OutPacket :=
  match setup st raw with
  | .raised _ out => out
  | .ok st1 out => out ++ runRead st1 0 fuel

/-- The (block number, payload length) trace of the DATA packets of an output
    list. -/
def dataPackets (out : List OutPacket) : List (Nat × Nat) :=
  out.filterMap (fun o =>
    match o with
    | .data bn payload => some (bn, payload.length)
    | _ => none)

/-- last_ack_block of the spec: the block number of the last ACK received
    (read from _last_packet_received), 0 before any. -/
def lastAckBlock (st : SessionState) : Nat :=
  match st.last_packet_received with
  | some n => n
  | none => 0

/-- highest_sent_block of the spec: _last_block_num, 0 before any send. -/
def highestSentBlock (st : SessionState) : Nat :=
  match st.last_block_num with
  | some n => n
  | none => 0

/-- The READ invariant of the spec:
    last_ack_block <= highest_sent_block <= last_ack_block + window_size. -/
def readInvariant (st : SessionState) : Prop :=
  lastAckBlock st ≤ highestSentBlock st ∧
    highestSentBlock st ≤ lastAckBlock st + st.window_size

instance : DecidablePred readInvariant := fun st => by
  unfold readInvariant
  infer_instance

/-! ## Session claim theorems -/

theorem decode_ackBytes (n : Nat) (h : n < 65536) :
    decode_tftp_datagram (ackBytes n) = .ok (.ack n) := decode_ack_ok n h

theorem decode_dataBytes (n : Nat) (payload : List Nat) (h : n < 65536) :
    decode_tftp_datagram (dataBytes n payload) = .ok (.data n payload) :=
  decode_data_ok n payload h

/-- A READ session on a 16-byte source with accepted blksize 8, after the OACK
    was acknowledged with ACK(0) and DATA(1) was sent: one outstanding block,
    last_ack_block 0, highest_sent_block 1. -/
def readState16 : SessionState :=
  { remote_addr := 1, src := List.replicate 16 65, written := [], mode := some .read,
    block_size := 8, window_size := 1, last_packet_received := some 0,
    last_block_num := some 1, final_block_sent := false, retries := 0,
    max_retries := 3, done := false }

/-- The state readState16 reaches after step processes ACK(7). -/
def readState16_after_ack7 : SessionState :=
  { readState16 with
      last_packet_received := some 7
      last_block_num := some 8
      final_block_sent := true }

/-- C5: the claim says an ACK outside the outstanding window makes step send
    ERROR(ILLEGAL_OP) and mark the session done.  In the source, step assigns
    _last_packet_received to the decoded ACK and then compares the ACK against
    _last_packet_received, so the comparison is n >= n and the ERROR branch is
    dead code.  At this failing input — window [1, 1] outstanding, ACK(7)
    arrives — the session instead answers with DATA(8, empty payload) (reading
    past end of file) and is not marked done. -/
theorem tftp_c5_dead_error_branch :
    step readState16 1 (ackBytes 7) = .ok readState16_after_ack7 [.data 8 []] ∧
    readState16_after_ack7.done = false := by decide

/-- A WRITE session right after a WRQ with no options was set up: ACK(0) sent,
    last_block_num 0, no packet recorded as received. -/
def writeState0 : SessionState :=
  { remote_addr := 1, src := [], written := [], mode := some .write,
    block_size := 512, window_size := 1, last_packet_received := none,
    last_block_num := some 0, final_block_sent := false, retries := 0,
    max_retries := 3, done := false }

/-- Counterexample to C6: the claim says a DATA packet whose block number
    equals last_data_block (here 0 = _last_block_num) makes the session
    re-send the ACK for that block without writing.  The code has no branch
    for this case at all: step returns with no packet sent (and no write). -/
theorem tftp_c6_counterexample :
    step writeState0 1 (dataBytes 0 [97, 98]) = .ok writeState0 [] := by decide

/-- C6 amended: on a WRITE session, a DATA packet whose block number equals
    _last_block_num (the code's last_data_block) is ignored entirely — the
    handler write is not called and no packet, in particular no ACK, is sent;
    only the retries counter is reset. -/
theorem tftp_c6_duplicate_data_ignored (st : SessionState) (n : Nat) (payload : List Nat)
    (hdone : st.done = false) (hmode : st.mode = some SessionMode.write)
    (hlb : st.last_block_num = some n) (hn : n < 65536) :
    step st st.remote_addr (dataBytes n payload) = .ok { st with retries := 0 } [] := by
  have hdec := decode_dataBytes n payload hn
  have hne : ¬(n = n + 1) := by omega
  unfold step
  rw [if_neg (by simp [hdone]), if_pos rfl, hdec]
  simp only [hmode, hlb]
  rw [if_neg hne]

/-- Witness for the amended C6 at a concrete duplicate DATA(0). -/
theorem tftp_c6_witness :
    step writeState0 writeState0.remote_addr (dataBytes 0 [97]) =
      .ok { writeState0 with retries := 0 } [] :=
  tftp_c6_duplicate_data_ignored writeState0 0 [97] (by decide) (by decide) (by decide)
    (by decide)

/-- Counterexample to C7: the claim says that on a timed-out WRITE session
    with retries < max_retries the handler re-sends the most recent ACK.  On
    this WRITE session (retries 0 < 3) timeout_handler instead raises an
    uncaught AttributeError (its debug log dereferences
    _last_packet_received.block_number, and the WRITE path never assigns
    _last_packet_received): nothing is sent and the exception propagates. -/
theorem tftp_c7_counterexample :
    timeout_handler writeState0 = .raised writeState0 [] := by decide

/-- The DATA window one _send_read_data call puts on the wire, starting after
    block n: DATA(n + 1), DATA(n + 2), ..., each carrying the corresponding
    block-size slice of the source. -/
def readWindow (src : List Nat) (B n i : Nat) : List OutPacket :=
  (List.range i).map (fun j =>
    OutPacket.data (n + 1 + j) (handlerRead src ((n + j) * B) ((n + j + 1) * B)))

theorem sendReadDataLoop_window (count : Nat) :
    ∀ st bn acc,
      ∃ i, i ≤ count ∧
        (sendReadDataLoop st bn count acc).2.1 =
          acc ++ readWindow st.src st.block_size bn i ∧
        (sendReadDataLoop st bn count acc).1.retries = st.retries ∧
        (1 ≤ count → bn + 1 < 65536 → 1 ≤ i) ∧
        ((sendReadDataLoop st bn count acc).2.2 = false →
          65536 ≤ bn + i + 1 ∧ i < count) ∧
        ((sendReadDataLoop st bn count acc).2.2 = true →
          i = count ∨ (sendReadDataLoop st bn count acc).1.final_block_sent = true) := by
  induction count with
  | zero =>
    intro st bn acc
    exact ⟨0, Nat.le_refl 0, by simp [sendReadDataLoop, readWindow], rfl, by omega,
      fun h => Bool.noConfusion h, fun _ => Or.inl rfl⟩
  | succ c ih =>
    intro st bn acc
    unfold sendReadDataLoop
    dsimp only
    by_cases hov : 65536 ≤ bn + 1
    · rw [if_pos hov]
      exact ⟨0, by omega, by simp [readWindow], rfl, by intro _ h; omega,
        fun _ => ⟨by omega, by omega⟩, fun h => Bool.noConfusion h⟩
    · rw [if_neg hov]
      by_cases hshort : (handlerRead st.src (bn * st.block_size)
          ((bn + 1) * st.block_size)).length < st.block_size
      · rw [if_pos hshort]
        refine ⟨1, by omega, ?_, rfl, by omega, fun h => Bool.noConfusion h,
          fun _ => Or.inr rfl⟩
        simp [readWindow, List.range_succ]
      · rw [if_neg hshort]
        obtain ⟨i, hi, hout, hret, hlb, hfl, hft⟩ :=
          ih { st with last_block_num := some (bn + 1) } (bn + 1)
            (acc ++ [.data (bn + 1) (handlerRead st.src (bn * st.block_size)
              ((bn + 1) * st.block_size))])
        refine ⟨i + 1, by omega, ?_, hret, by omega, ?_, ?_⟩
        · rw [hout]
          dsimp only
          rw [List.append_assoc]
          congr 1
          unfold readWindow
          rw [List.range_succ_eq_map]
          simp only [List.map_cons, List.map_map, List.singleton_append]
          congr 1
          apply List.map_congr_left
          intro j hj
          dsimp only [Function.comp]
          have e1 : bn + Nat.succ j = bn + 1 + j := by omega
          have e2 : bn + 1 + Nat.succ j = bn + 1 + 1 + j := by omega
          rw [e1, e2]
        · intro h
          obtain ⟨ha, hb⟩ := hfl h
          exact ⟨by omega, by omega⟩
        · intro h
          rcases hft h with ha | hb
          · exact Or.inl (by omega)
          · exact Or.inr hb

/-- C7 amended: when retries >= max_retries, timeout_handler sends
    ERROR(NOT_DEFINED, "Session timed out.") and marks done.  When
    retries < max_retries it increments retries and calls _send_read_data,
    but only after the debug log dereferences _last_packet_received: with no
    packet received yet it raises AttributeError out of the handler; on a
    WRITE session (where _send_read_data is a no-op) nothing is re-sent; on a
    READ session with a recorded ACK(n) the DATA window from n is re-sent:
    consecutive DATA packets numbered from n + 1, at most window_size of them
    (and at least one when n + 1 fits 16 bits), a full window unless the
    final short block ended it early; when a block number in the window would
    exceed 65535 its re-encode raises struct.error out of the handler after
    the earlier packets of the window were sent. -/
theorem tftp_c7_timeout_behaviour (st : SessionState) (n : Nat) :
    (st.max_retries ≤ st.retries →
      timeout_handler st =
        .ok { st with done := true }
          [.err ErrorCodes.NOT_DEFINED ("Session timed out.")]) ∧
    (st.retries < st.max_retries → st.last_packet_received = none →
      timeout_handler st = .raised st []) ∧
    (st.retries < st.max_retries → st.last_packet_received = some n →
      st.mode = some SessionMode.write →
      timeout_handler st = .ok { st with retries := st.retries + 1 } []) ∧
    (st.retries < st.max_retries → st.last_packet_received = some n →
      st.mode = some SessionMode.read →
      ∃ st2 i, i ≤ st.window_size ∧ st2.retries = st.retries + 1 ∧
        (1 ≤ st.window_size → n + 1 < 65536 → 1 ≤ i) ∧
        ((timeout_handler st = .ok st2 (readWindow st.src st.block_size n i) ∧
            (i = st.window_size ∨ st2.final_block_sent = true)) ∨
          (timeout_handler st = .raised st2 (readWindow st.src st.block_size n i) ∧
            65536 ≤ n + i + 1 ∧ i < st.window_size))) := by
  refine ⟨?_, ?_, ?_, ?_⟩
  · intro h
    unfold timeout_handler
    rw [if_neg (show ¬(st.retries < st.max_retries) by omega)]
    rfl
  · intro h1 h2
    unfold timeout_handler
    rw [if_pos h1, h2]
  · intro h1 h2 h3
    unfold timeout_handler
    rw [if_pos h1, h2]
    simp only [send_read_data, h3]
    rfl
  · intro h1 h2 h3
    obtain ⟨addr, src2, wr2, mode2, bs, ws, lpr, lbn, fbs, rt, mr, dn⟩ := st
    dsimp only at h1 h2 h3 ⊢
    subst h2
    subst h3
    unfold timeout_handler
    rw [if_pos h1]
    dsimp only
    unfold send_read_data
    dsimp only
    rw [if_pos rfl]
    obtain ⟨i, hi, hout, hret, hlb, hfl, hft⟩ :=
      sendReadDataLoop_window ws
        { remote_addr := addr, src := src2, written := wr2,
          mode := some SessionMode.read, block_size := bs, window_size := ws,
          last_packet_received := some n, last_block_num := lbn,
          final_block_sent := fbs, retries := rt + 1, max_retries := mr, done := dn }
        n []
    split
    · rename_i st3 out3 heq3
      rw [heq3] at hout hret hft
      dsimp only at hout hret hft
      have hout2 : out3 = readWindow src2 bs n i := hout
      refine ⟨st3, i, hi, hret, hlb, Or.inl ⟨by rw [hout2], ?_⟩⟩
      rcases hft rfl with ha | hb
      · exact Or.inl ha
      · exact Or.inr hb
    · rename_i st3 out3 heq3
      rw [heq3] at hout hret hfl
      dsimp only at hout hret hfl
      have hout2 : out3 = readWindow src2 bs n i := hout
      obtain ⟨ha, hb⟩ := hfl rfl
      exact ⟨st3, i, hi, hret, hlb, Or.inr ⟨by rw [hout2], ha, hb⟩⟩

/-- A READ session that has exhausted its retries. -/
def readState16_exhausted : SessionState := { readState16 with retries := 3 }

/-- Witness for the amended C7: the exhausted branch at a concrete state. -/
theorem tftp_c7_witness :
    timeout_handler readState16_exhausted =
      .ok { readState16_exhausted with done := true }
        [.err ErrorCodes.NOT_DEFINED ("Session timed out.")] :=
  (tftp_c7_timeout_behaviour readState16_exhausted 0).1 (by decide)

/-- Counterexample to C8: the claim says a datagram whose source address
    differs from remote_addr is dropped silently.  The source instead hits
    `assert address == self.remote_addr`, which stands before the try block of
    step: the AssertionError propagates to the caller (.raised), which is not
    a silent drop (in the server loop it would escape serve_forever). -/
theorem tftp_c8_counterexample :
    step writeState0 2 (dataBytes 1 [97]) = .raised writeState0 [] := by decide

/-- C8 amended: a datagram from a foreign source address makes step fail on
    its source assert: no packet is sent, the session state (including done)
    is unchanged, but the AssertionError propagates to the caller instead of
    being swallowed. -/
theorem tftp_c8_foreign_source_raises (st : SessionState) (source : Nat) (raw : List Nat)
    (hdone : st.done = false) (hsrc : source ≠ st.remote_addr) :
    step st source raw = .raised st [] := by
  unfold step
  rw [if_neg (by simp [hdone]), if_neg hsrc]

/-- Witness for the amended C8 at a concrete foreign datagram. -/
theorem tftp_c8_witness :
    step readState16 7 (ackBytes 1) = .raised readState16 [] :=
  tftp_c8_foreign_source_raises readState16 7 (ackBytes 1) (by decide) (by decide)

/-! ## Option negotiation (C10) -/

theorem setupReadOptionsLoop_done (opts : List (List Nat × List Nat)) :
    ∀ st usable out st2 u2 o2,
      setupReadOptionsLoop st opts usable out = .ok (st2, u2, o2) →
      st.done = true → st2.done = true := by
  induction opts with
  | nil =>
    intro st usable out st2 u2 o2 h hdone
    unfold setupReadOptionsLoop at h
    injection h with h2
    injection h2 with h3 h4
    subst h3
    exact hdone
  | cons opt rest ih =>
    intro st usable out st2 u2 o2 h hdone
    unfold setupReadOptionsLoop at h
    split at h
    all_goals try split at h
    all_goals try split at h
    all_goals try split at h
    all_goals try split at h
    all_goals try split at h
    all_goals first
      | exact Except.noConfusion h
      | exact ih _ _ _ _ _ _ h hdone
      | exact ih _ _ _ _ _ _ h rfl

theorem setupReadOptionsLoop_out_mono (opts : List (List Nat × List Nat)) :
    ∀ st usable out st2 u2 o2,
      setupReadOptionsLoop st opts usable out = .ok (st2, u2, o2) →
      ∃ extra, o2 = out ++ extra := by
  induction opts with
  | nil =>
    intro st usable out st2 u2 o2 h
    unfold setupReadOptionsLoop at h
    injection h with h2
    injection h2 with h3 h4
    injection h4 with h5 h6
    subst h6
    exact ⟨[], by simp⟩
  | cons opt rest ih =>
    intro st usable out st2 u2 o2 h
    unfold setupReadOptionsLoop at h
    split at h
    all_goals try split at h
    all_goals try split at h
    all_goals try split at h
    all_goals try split at h
    all_goals try split at h
    all_goals first
      | exact Except.noConfusion h
      | exact ih _ _ _ _ _ _ h
      | (obtain ⟨extra, hx⟩ := ih _ _ _ _ _ _ h
         exact ⟨_, by rw [hx, List.append_assoc]⟩)

theorem loop_bad_blksize (l2 : List (List Nat × List Nat)) (bname bval : List Nat) (v : Int)
    (hname : lowerBytes bname = KnownOptions.BLKSIZE)
    (hv : parseInt bval = some v) (hrange : ¬(8 ≤ v ∧ v ≤ 65464)) :
    ∀ (l1 : List (List Nat × List Nat)) (st : SessionState) usable out st2 u2 o2,
      setupReadOptionsLoop st (l1 ++ (bname, bval) :: l2) usable out = .ok (st2, u2, o2) →
      st2.done = true ∧ ∃ m, OutPacket.err ErrorCodes.ILLEGAL_OP m ∈ o2 := by
  intro l1
  induction l1 with
  | nil =>
    intro st usable out st2 u2 o2 h
    rw [List.nil_append] at h
    unfold setupReadOptionsLoop at h
    dsimp only at h
    rw [hname, if_pos rfl, hv] at h
    dsimp only at h
    rw [if_neg hrange] at h
    have hdone := setupReadOptionsLoop_done l2 _ _ _ _ _ _ h rfl
    obtain ⟨extra, hx⟩ := setupReadOptionsLoop_out_mono l2 _ _ _ _ _ _ h
    refine ⟨hdone, ⟨"Invalid requested block size: " ++ toString v, ?_⟩⟩
    rw [hx]
    simp [sendError]
  | cons opt l1x ih =>
    intro st usable out st2 u2 o2 h
    rw [List.cons_append] at h
    unfold setupReadOptionsLoop at h
    split at h
    all_goals try split at h
    all_goals try split at h
    all_goals try split at h
    all_goals try split at h
    all_goals try split at h
    all_goals first
      | exact Except.noConfusion h
      | exact ih _ _ _ _ _ _ h

/-- C10: during setup of an RRQ with options, when some option value is out of
    range (here a blksize outside 8..65464, parsed from its value string), the
    session sends ERROR(ILLEGAL_OP) and marks done, but the loop still
    continues over the remaining options, and setup then sends an OACK with
    the options accepted so far on the same socket — so the client can receive
    an OACK after the ERROR.  (The hypothesis on the option loop rules out an
    int() exception in a later option, which would abort the loop.) -/
theorem tftp_c10_error_then_oack (a : Nat) (src : List Nat) (mr : Nat)
    (raw : List Nat) (filename fmode : List Nat)
    (l1 l2 : List (List Nat × List Nat)) (bname bval : List Nat) (v : Int)
    (hdec : decode_tftp_datagram raw = .ok (.rrq filename fmode (l1 ++ (bname, bval) :: l2)))
    (hname : lowerBytes bname = KnownOptions.BLKSIZE)
    (hv : parseInt bval = some v) (hrange : ¬(8 ≤ v ∧ v ≤ 65464))
    (st2 : SessionState) (usable : List (List Nat × List Nat)) (out : List OutPacket)
    (hloop : setupReadOptionsLoop
        { sessionInit a src mr with mode := some SessionMode.read }
        (l1 ++ (bname, bval) :: l2) [] [] = .ok (st2, usable, out)) :
    setup (sessionInit a src mr) raw = .ok st2 (out ++ [.oack usable]) ∧
    st2.done = true ∧ (∃ m, OutPacket.err ErrorCodes.ILLEGAL_OP m ∈ out) := by
  have hne : ¬(l1 ++ (bname, bval) :: l2 = []) := by simp
  refine ⟨?_, ?_⟩
  · unfold setup
    rw [hdec]
    dsimp only
    rw [if_neg hne, hloop]
  · exact loop_bad_blksize l2 bname bval v hname hv hrange l1 _ _ _ _ _ _ hloop

/-- The state a fresh session reaches when its single option, blksize 4, is
    rejected during read setup. -/
def c10_after : SessionState :=
  { sessionInit 1 (List.replicate 9 65) 3 with
      mode := some SessionMode.read
      done := true }

/-- Witness for C10: an RRQ for a 9-byte file with the single option
    blksize=4; the session sends ERROR(ILLEGAL_OP) followed by an (empty)
    OACK and is done. -/
theorem tftp_c10_witness :
    setup (sessionInit 1 (List.replicate 9 65) 3)
        (0 :: 1 :: pack_c_strs ([102] :: [111] ::
          optionStrs [(KnownOptions.BLKSIZE, [52])])) =
      .ok c10_after
        ([.err ErrorCodes.ILLEGAL_OP ("Invalid requested block size: 4")] ++
          [.oack []]) ∧
    c10_after.done = true ∧
    (∃ m, OutPacket.err ErrorCodes.ILLEGAL_OP m ∈
      [OutPacket.err ErrorCodes.ILLEGAL_OP ("Invalid requested block size: 4")]) :=
  tftp_c10_error_then_oack 1 (List.replicate 9 65) 3 _ [102] [111] [] []
    KnownOptions.BLKSIZE [52] 4
    (decode_rrq_ok [102] [111] [(KnownOptions.BLKSIZE, [52])] (by decide) (by decide)
      (by decide))
    (by decide) (by decide) (by decide) c10_after [] _ (by decide)

/-! ## The RRQ data-transfer trace (C4) -/

theorem handlerRead_length (src : List Nat) (k B : Nat) :
    (handlerRead src (k * B) ((k + 1) * B)).length = min B (src.length - k * B) := by
  unfold handlerRead
  rw [List.length_take, List.length_drop]
  have h1 : (k + 1) * B - k * B = B := by
    have h2 : (k + 1) * B = k * B + B := Nat.succ_mul k B
    omega
  rw [h1]

theorem chunk_full {src : List Nat} {N B k : Nat} (hN : src.length = N)
    (hk : k < N / B) :
    (handlerRead src (k * B) ((k + 1) * B)).length = B := by
  rw [handlerRead_length, hN]
  have h1 : (k + 1) * B ≤ (N / B) * B := Nat.mul_le_mul_right B hk
  have h2 : (N / B) * B ≤ N := by
    have := Nat.div_mul_le_self N B
    omega
  have h3 : (k + 1) * B = k * B + B := Nat.succ_mul k B
  omega

theorem chunk_last {src : List Nat} {N B : Nat} (hN : src.length = N) (hB : 0 < B) :
    (handlerRead src ((N / B) * B) ((N / B + 1) * B)).length = N % B := by
  rw [handlerRead_length, hN]
  have h1 : B * (N / B) + N % B = N := Nat.div_add_mod N B
  have h2 : N % B < B := Nat.mod_lt _ hB
  have h3 : (N / B) * B = B * (N / B) := Nat.mul_comm _ _
  omega

theorem chunk_last_short {src : List Nat} {N B : Nat} (hN : src.length = N) (hB : 0 < B) :
    (handlerRead src ((N / B) * B) ((N / B + 1) * B)).length < B := by
  rw [chunk_last hN hB]
  exact Nat.mod_lt _ hB

/-- step on an in-progress READ session (window size 1, final block not yet
    sent) receiving ACK(k), when block k + 1 is full: the session sends
    DATA(k + 1) and advances. -/
theorem step_ack_full (st : SessionState) (k : Nat)
    (hdone : st.done = false) (hmode : st.mode = some SessionMode.read)
    (hfbs : st.final_block_sent = false) (hws : st.window_size = 1)
    (hk1 : k + 1 < 65536)
    (hfull : ¬ (handlerRead st.src (k * st.block_size) ((k + 1) * st.block_size)).length <
      st.block_size) :
    step st st.remote_addr (ackBytes k) =
      .ok { st with
              retries := 0
              last_packet_received := some k
              last_block_num := some (k + 1) }
        [.data (k + 1) (handlerRead st.src (k * st.block_size) ((k + 1) * st.block_size))] := by
  obtain ⟨addr, src2, wr2, mode2, bs, ws, lpr, lbn, fbs2, rt, mr, dn⟩ := st
  dsimp only at hdone hmode hfbs hws hfull ⊢
  subst hdone
  subst hmode
  subst hfbs
  subst hws
  have hdec := decode_ackBytes k (by omega)
  have hne1 : ¬(65536 ≤ k + 1) := by omega
  simp only [step, hdec, send_read_data, sendReadDataLoop, if_neg hne1, if_neg hfull,
    Bool.false_eq_true, if_false, false_and, ge_iff_le, le_refl, if_true, if_pos rfl,
    List.nil_append]

/-- step on an in-progress READ session (window size 1, final block not yet
    sent) receiving ACK(k), when block k + 1 is short: the session sends the
    final DATA(k + 1) and sets final_block_sent. -/
theorem step_ack_short (st : SessionState) (k : Nat)
    (hdone : st.done = false) (hmode : st.mode = some SessionMode.read)
    (hfbs : st.final_block_sent = false) (hws : st.window_size = 1)
    (hk1 : k + 1 < 65536)
    (hshort : (handlerRead st.src (k * st.block_size) ((k + 1) * st.block_size)).length <
      st.block_size) :
    step st st.remote_addr (ackBytes k) =
      .ok { st with
              retries := 0
              last_packet_received := some k
              last_block_num := some (k + 1)
              final_block_sent := true }
        [.data (k + 1) (handlerRead st.src (k * st.block_size) ((k + 1) * st.block_size))] := by
  obtain ⟨addr, src2, wr2, mode2, bs, ws, lpr, lbn, fbs2, rt, mr, dn⟩ := st
  dsimp only at hdone hmode hfbs hws hshort ⊢
  subst hdone
  subst hmode
  subst hfbs
  subst hws
  have hdec := decode_ackBytes k (by omega)
  have hne1 : ¬(65536 ≤ k + 1) := by omega
  simp only [step, hdec, send_read_data, sendReadDataLoop, if_neg hne1, if_pos hshort,
    Bool.false_eq_true, if_false, false_and, ge_iff_le, le_refl, if_true, if_pos rfl,
    List.nil_append]

/-- step on a READ session whose final block k was just acknowledged: the
    session is done and sends nothing. -/
theorem step_ack_final (st : SessionState) (k : Nat)
    (hdone : st.done = false) (hmode : st.mode = some SessionMode.read)
    (hfbs : st.final_block_sent = true) (hlb : st.last_block_num = some k)
    (hk : k < 65536) :
    step st st.remote_addr (ackBytes k) =
      .ok { st with
              retries := 0
              last_packet_received := some k
              done := true } [] := by
  obtain ⟨addr, src2, wr2, mode2, bs, ws, lpr, lbn, fbs2, rt, mr, dn⟩ := st
  dsimp only at hdone hmode hfbs hlb ⊢
  subst hdone
  subst hmode
  subst hfbs
  subst hlb
  have hdec := decode_ackBytes k hk
  simp only [step, hdec, Bool.false_eq_true, if_false, true_and, if_pos rfl,
    eq_self_iff_true, if_true]

/-- setup of a fresh session on an RRQ carrying exactly one option, an
    accepted blksize: the session enters READ mode with the new block size
    and sends an OACK echoing the option. -/
theorem setup_blksize (a : Nat) (src : List Nat) (mr : Nat) (raw : List Nat)
    (filename fmode bval : List Nat) (v : Int)
    (hdec : decode_tftp_datagram raw =
      .ok (.rrq filename fmode [(KnownOptions.BLKSIZE, bval)]))
    (hv : parseInt bval = some v) (hrange : 8 ≤ v ∧ v ≤ 65464) :
    setup (sessionInit a src mr) raw =
      .ok { sessionInit a src mr with
              mode := some SessionMode.read
              block_size := v.toNat }
        [.oack [(KnownOptions.BLKSIZE, bval)]] := by
  have hlower : lowerBytes KnownOptions.BLKSIZE = KnownOptions.BLKSIZE := by decide
  unfold setup
  rw [hdec]
  dsimp only
  rw [if_neg (by simp)]
  unfold setupReadOptionsLoop
  dsimp only
  rw [hlower, if_pos rfl, hv]
  dsimp only
  rw [if_pos hrange]
  unfold setupReadOptionsLoop
  dsimp only
  rfl

theorem dataPackets_append (a b : List OutPacket) :
    dataPackets (a ++ b) = dataPackets a ++ dataPackets b := by
  unfold dataPackets
  rw [List.filterMap_append]

theorem dataPackets_map_data (g : Nat → Nat) (h : Nat → List Nat) (l : List Nat) :
    dataPackets (l.map (fun i => OutPacket.data (g i) (h i))) =
      l.map (fun i => (g i, (h i).length)) := by
  induction l with
  | nil => rfl
  | cons x xs ih =>
    unfold dataPackets at ih ⊢
    simp only [List.map_cons, List.filterMap_cons]
    rw [ih]

/-- The DATA packets a window-1 READ session emits when the client
    acknowledges every block, starting from ACK(k): blocks k + 1 .. N/B + 1,
    each the corresponding slice of the source. -/
theorem runRead_collect (B N : Nat) (hB : 0 < B) (hbound : N / B + 1 < 65536) :
    ∀ (fuel k : Nat) (st : SessionState),
      st.mode = some SessionMode.read → st.block_size = B → st.window_size = 1 →
      st.src.length = N → st.done = false → st.final_block_sent = false →
      k ≤ N / B → N / B + 2 - k ≤ fuel →
      runRead st k fuel =
        (List.range (N / B + 1 - k)).map
          (fun i => OutPacket.data (k + 1 + i)
            (handlerRead st.src ((k + i) * B) ((k + i + 1) * B))) := by
  intro fuel
  induction fuel with
  | zero =>
    intro k st _ _ _ _ _ _ hk hfuel
    omega
  | succ fuel ih =>
    intro k st hmode hbs hws hsrc hdone hfbs hk hfuel
    have hr : runRead st k (fuel + 1) =
        (match step st st.remote_addr (ackBytes k) with
         | .raised _ out => out
         | .ok st2 out =>
           if st2.done then out
           else
             match st2.last_block_num with
             | none => out
             | some lb => out ++ runRead st2 lb fuel) := rfl
    by_cases hlast : k = N / B
    · subst hlast
      have hshort : (handlerRead st.src (N / B * st.block_size)
          ((N / B + 1) * st.block_size)).length < st.block_size := by
        rw [hbs]
        exact chunk_last_short hsrc hB
      have hstep := step_ack_short st (N / B) hdone hmode hfbs hws (by omega) hshort
      rw [hr, hstep]
      dsimp only
      rw [if_neg (show ¬(st.done = true) from by simp [hdone])]
      obtain ⟨fuel2, rfl⟩ : ∃ f2, fuel = f2 + 1 := ⟨fuel - 1, by omega⟩
      have hfin := step_ack_final
        { st with
            retries := 0
            last_packet_received := some (N / B)
            last_block_num := some (N / B + 1)
            final_block_sent := true }
        (N / B + 1) hdone hmode rfl rfl (by omega)
      have hrr : runRead
          { st with
              retries := 0
              last_packet_received := some (N / B)
              last_block_num := some (N / B + 1)
              final_block_sent := true }
          (N / B + 1) (fuel2 + 1) = [] := by
        have hr3 : runRead
            { st with
                retries := 0
                last_packet_received := some (N / B)
                last_block_num := some (N / B + 1)
                final_block_sent := true }
            (N / B + 1) (fuel2 + 1) =
            (match step
                { st with
                    retries := 0
                    last_packet_received := some (N / B)
                    last_block_num := some (N / B + 1)
                    final_block_sent := true }
                st.remote_addr (ackBytes (N / B + 1)) with
             | .raised _ out => out
             | .ok st2 out =>
               if st2.done then out
               else
                 match st2.last_block_num with
                 | none => out
                 | some lb => out ++ runRead st2 lb fuel2) := rfl
        rw [hr3, hfin]
        simp
      rw [hrr]
      rw [show N / B + 1 - N / B = 1 from by omega]
      simp [List.range_succ, hbs]
    · have hklt : k < N / B := by omega
      have hfull2 : ¬ (handlerRead st.src (k * st.block_size)
          ((k + 1) * st.block_size)).length < st.block_size := by
        rw [hbs, chunk_full hsrc hklt]
        omega
      have hstep := step_ack_full st k hdone hmode hfbs hws (by omega) hfull2
      rw [hr, hstep]
      dsimp only
      rw [if_neg (show ¬(st.done = true) from by simp [hdone])]
      have hih := ih (k + 1)
        { st with
            retries := 0
            last_packet_received := some k
            last_block_num := some (k + 1) }
        hmode hbs hws hsrc hdone hfbs (by omega) (by omega)
      rw [hih, hbs]
      dsimp only
      rw [show N / B + 1 - k = (N / B - k) + 1 from by omega, List.range_succ_eq_map]
      simp only [List.map_cons, List.map_map, List.singleton_append]
      congr 1
      rw [show N / B + 1 - (k + 1) = N / B - k from by omega]
      apply List.map_congr_left
      intro i hi
      dsimp only [Function.comp]
      have e1 : k + Nat.succ i = k + 1 + i := by omega
      have e3 : k + 1 + Nat.succ i = k + 1 + 1 + i := by omega
      rw [e1, e3]

/-- C4: an RRQ session whose single option is an accepted block size B
    (8 <= B <= 65464), over the model read handler whose source is exactly N
    bytes, with the client acknowledging every block, emits exactly
    floor(N/B) + 1 DATA packets, numbered consecutively from 1, each of
    length B except the last, whose length is N mod B (possibly 0).  The
    bound N/B + 1 < 65536 keeps every block number representable in the
    packet's 16-bit field. -/
theorem tftp_c4_read_session_blocks (a : Nat) (src : List Nat) (mr : Nat) (N B : Nat)
    (hN : src.length = N) (hB8 : 8 ≤ B) (hBle : B ≤ 65464)
    (hbound : N / B + 1 < 65536)
    (raw : List Nat) (filename fmode bval : List Nat)
    (hdec : decode_tftp_datagram raw =
      .ok (.rrq filename fmode [(KnownOptions.BLKSIZE, bval)]))
    (hv : parseInt bval = some (B : Int))
    (fuel : Nat) (hfuel : N / B + 2 ≤ fuel) :
    dataPackets (sessionRun (sessionInit a src mr) raw fuel) =
      (List.range (N / B + 1)).map
        (fun i => (i + 1, if i < N / B then B else N % B)) := by
  have hrange : 8 ≤ (B : Int) ∧ (B : Int) ≤ 65464 :=
    ⟨by exact_mod_cast hB8, by exact_mod_cast hBle⟩
  have hsetup := setup_blksize a src mr raw filename fmode bval (B : Int) hdec hv hrange
  have htoNat : ((B : Int)).toNat = B := Int.toNat_natCast B
  unfold sessionRun
  rw [hsetup]
  dsimp only
  have hcol := runRead_collect B N (by omega) hbound fuel 0
    { sessionInit a src mr with
        mode := some SessionMode.read
        block_size := ((B : Int)).toNat }
    rfl htoNat rfl hN rfl rfl (Nat.zero_le _) (by omega)
  rw [hcol]
  dsimp only
  simp only [show (sessionInit a src mr).src = src from rfl]
  rw [dataPackets_append]
  rw [dataPackets_map_data (fun i => 0 + 1 + i)
    (fun i => handlerRead src ((0 + i) * B) ((0 + i + 1) * B))]
  rw [show dataPackets [OutPacket.oack [(KnownOptions.BLKSIZE, bval)]] = [] from rfl]
  rw [List.nil_append, show N / B + 1 - 0 = N / B + 1 from rfl]
  apply List.map_congr_left
  intro i hi
  have hi2 : i < N / B + 1 := List.mem_range.mp hi
  have e0 : 0 + i = i := by omega
  have e1 : 0 + 1 + i = i + 1 := by omega
  rw [e0, e1]
  by_cases hcase : i < N / B
  · rw [if_pos hcase, chunk_full hN hcase]
  · have heq : i = N / B := by omega
    subst heq
    rw [if_neg hcase, chunk_last hN (by omega)]

/-- Witness for C4: a 9-byte file with blksize 8 produces DATA(1) of length 8
    and DATA(2) of length 1. -/
theorem tftp_c4_witness :
    dataPackets (sessionRun (sessionInit 1 (List.replicate 9 65) 3)
        (0 :: 1 :: pack_c_strs ([102] :: [111] ::
          optionStrs [(KnownOptions.BLKSIZE, [56])])) 4) =
      (List.range (9 / 8 + 1)).map
        (fun i => (i + 1, if i < 9 / 8 then 8 else 9 % 8)) :=
  tftp_c4_read_session_blocks 1 (List.replicate 9 65) 3 9 8 (by decide) (by decide)
    (by decide) (by decide) _ [102] [111] [56]
    (decode_rrq_ok [102] [111] [(KnownOptions.BLKSIZE, [56])] (by decide) (by decide)
      (by decide))
    (by decide) 4 (by decide)

/-! ## The READ window invariant (C9) -/

/-- The session state after an operation, for both normal returns and
    propagated exceptions. -/
def resultState : StepResult → SessionState
  | .ok st _ => st
  | .raised st _ => st

/-- The state readState16 reaches after step processes ACK(65535): the encode
    of block 65536 raises struct.error mid-send, the session errors out, and
    last_ack_block (65535) is far above highest_sent_block (1). -/
def readState16_after_big_ack : SessionState :=
  { readState16 with last_packet_received := some 65535, done := true }

/-- Counterexample to C9: the invariant
    last_ack_block <= highest_sent_block <= last_ack_block + window_size holds
    before the step, but the step that receives ACK(65535) (whose successor
    block number cannot be encoded) leaves a reachable state violating it. -/
theorem tftp_c9_counterexample :
    readInvariant readState16 ∧
    step readState16 1 (ackBytes 65535) =
      .ok readState16_after_big_ack [.err ErrorCodes.NOT_DEFINED ("struct error")] ∧
    ¬ readInvariant readState16_after_big_ack := by decide

theorem sendReadDataLoop_frame (count : Nat) :
    ∀ st bn acc,
      (sendReadDataLoop st bn count acc).1.last_packet_received = st.last_packet_received ∧
      (sendReadDataLoop st bn count acc).1.window_size = st.window_size := by
  induction count with
  | zero => intro st bn acc; exact ⟨rfl, rfl⟩
  | succ c ih =>
    intro st bn acc
    unfold sendReadDataLoop
    dsimp only
    by_cases hov : 65536 ≤ bn + 1
    · rw [if_pos hov]; exact ⟨rfl, rfl⟩
    · rw [if_neg hov]
      by_cases hshort : (handlerRead st.src (bn * st.block_size)
          ((bn + 1) * st.block_size)).length < st.block_size
      · rw [if_pos hshort]; exact ⟨rfl, rfl⟩
      · rw [if_neg hshort]
        exact ih _ _ _

theorem sendReadDataLoop_lastBlock (count : Nat) :
    ∀ st bn acc,
      (sendReadDataLoop st bn count acc).1.last_block_num = st.last_block_num ∨
      ∃ i, 1 ≤ i ∧ i ≤ count ∧
        (sendReadDataLoop st bn count acc).1.last_block_num = some (bn + i) := by
  induction count with
  | zero => intro st bn acc; exact Or.inl rfl
  | succ c ih =>
    intro st bn acc
    unfold sendReadDataLoop
    dsimp only
    by_cases hov : 65536 ≤ bn + 1
    · rw [if_pos hov]; exact Or.inl rfl
    · rw [if_neg hov]
      by_cases hshort : (handlerRead st.src (bn * st.block_size)
          ((bn + 1) * st.block_size)).length < st.block_size
      · rw [if_pos hshort]
        exact Or.inr ⟨1, le_refl 1, by omega, rfl⟩
      · rw [if_neg hshort]
        rcases ih { st with last_block_num := some (bn + 1) } (bn + 1) _ with h | ⟨i, h1, h2, h3⟩
        · exact Or.inr ⟨1, le_refl 1, by omega, h⟩
        · exact Or.inr ⟨i + 1, by omega, by omega, by rw [h3]; congr 1; omega⟩

theorem sendReadDataLoop_sends (count : Nat) (hc : 1 ≤ count) :
    ∀ st bn acc, bn + 1 < 65536 →
      ∃ i, 1 ≤ i ∧ i ≤ count ∧
        (sendReadDataLoop st bn count acc).1.last_block_num = some (bn + i) ∧
        (sendReadDataLoop st bn count acc).1.last_packet_received =
          st.last_packet_received ∧
        (sendReadDataLoop st bn count acc).1.window_size = st.window_size := by
  obtain ⟨c, rfl⟩ : ∃ c, count = c + 1 := ⟨count - 1, by omega⟩
  intro st bn acc hbn
  unfold sendReadDataLoop
  dsimp only
  rw [if_neg (show ¬(65536 ≤ bn + 1) by omega)]
  by_cases hshort : (handlerRead st.src (bn * st.block_size)
      ((bn + 1) * st.block_size)).length < st.block_size
  · rw [if_pos hshort]
    exact ⟨1, le_refl 1, by omega, rfl, rfl, rfl⟩
  · rw [if_neg hshort]
    have hf := sendReadDataLoop_frame c { st with last_block_num := some (bn + 1) } (bn + 1)
      (acc ++ [.data (bn + 1) (handlerRead st.src (bn * st.block_size)
        ((bn + 1) * st.block_size))])
    rcases sendReadDataLoop_lastBlock c { st with last_block_num := some (bn + 1) } (bn + 1)
        (acc ++ [.data (bn + 1) (handlerRead st.src (bn * st.block_size)
          ((bn + 1) * st.block_size))]) with h | ⟨i, h1, h2, h3⟩
    · exact ⟨1, le_refl 1, by omega, h, hf.1, hf.2⟩
    · exact ⟨i + 1, by omega, by omega, by rw [h3]; congr 1; omega, hf.1, hf.2⟩

/-- The state carried by the result of the option loop (the ok state or the
    state at the raise point). -/
def loopResultState : Except (SessionState × List OutPacket)
    (SessionState × List (List Nat × List Nat) × List OutPacket) → SessionState
  | .ok (s, _, _) => s
  | .error (s, _) => s

theorem setupReadOptionsLoop_blocks (opts : List (List Nat × List Nat)) :
    ∀ st usable out,
      (loopResultState (setupReadOptionsLoop st opts usable out)).last_packet_received =
        st.last_packet_received ∧
      (loopResultState (setupReadOptionsLoop st opts usable out)).last_block_num =
        st.last_block_num := by
  induction opts with
  | nil => intro st usable out; exact ⟨rfl, rfl⟩
  | cons opt rest ih =>
    intro st usable out
    unfold setupReadOptionsLoop
    split
    all_goals try split
    all_goals try split
    all_goals try split
    all_goals try split
    all_goals try split
    all_goals first
      | exact ⟨rfl, rfl⟩
      | exact ih _ _ _

theorem setupWriteOptionsLoop_blocks (opts : List (List Nat × List Nat)) :
    ∀ st usable out,
      (loopResultState (setupWriteOptionsLoop st opts usable out)).last_packet_received =
        st.last_packet_received ∧
      (loopResultState (setupWriteOptionsLoop st opts usable out)).last_block_num =
        st.last_block_num := by
  induction opts with
  | nil => intro st usable out; exact ⟨rfl, rfl⟩
  | cons opt rest ih =>
    intro st usable out
    unfold setupWriteOptionsLoop
    split
    all_goals try split
    all_goals try split
    all_goals try split
    all_goals first
      | exact ⟨rfl, rfl⟩
      | exact ih _ _ _

/-- C9 amended: the READ invariant
    last_ack_block <= highest_sent_block <= last_ack_block + window_size
    holds after setup and is preserved by every timeout_handler call and by
    every step call that does not process an ACK whose successor block number
    overflows 16 bits; a step receiving ACK(65535) can instead leave
    last_ack_block > highest_sent_block (see the counterexample). -/
theorem tftp_c9_read_invariant :
    (∀ (a : Nat) (src : List Nat) (mr : Nat) (raw : List Nat),
      readInvariant (resultState (setup (sessionInit a src mr) raw))) ∧
    (∀ (st : SessionState) (source : Nat) (raw : List Nat),
      st.mode = some SessionMode.read → 1 ≤ st.window_size → readInvariant st →
      (∀ m, decode_tftp_datagram raw = .ok (.ack m) → m < 65535) →
      readInvariant (resultState (step st source raw))) ∧
    (∀ st : SessionState, st.mode = some SessionMode.read → readInvariant st →
      readInvariant (resultState (timeout_handler st))) := by
  refine ⟨?_, ?_, ?_⟩
  · -- setup establishes the invariant
    intro a src mr raw
    have hinit : readInvariant (sessionInit a src mr) := ⟨Nat.le_refl 0, Nat.zero_le _⟩
    unfold setup
    dsimp only [sessionInit]
    split
    · exact hinit
    · -- read request
      rename_i filename fmode options heq
      split
      · -- no options: the first window is sent
        obtain ⟨i, hi1, hi2, hlbn, hlpr, hwseq⟩ :=
          sendReadDataLoop_sends 1 (Nat.le_refl 1)
            { remote_addr := a, src := src, written := [], mode := some SessionMode.read,
              block_size := 512, window_size := 1, last_packet_received := none,
              last_block_num := none, final_block_sent := false, retries := 0,
              max_retries := mr, done := false } 0 [] (by norm_num)
        unfold send_read_data
        dsimp only
        rw [if_pos rfl]
        split
        · rename_i st3 out3 heq3
          rw [heq3] at hlbn hlpr hwseq
          dsimp only at hlbn hlpr hwseq
          have h1 : lastAckBlock st3 = 0 := by
            unfold lastAckBlock
            rw [show st3.last_packet_received = none from hlpr]
          have h2 : highestSentBlock st3 = 0 + i := by
            unfold highestSentBlock
            rw [hlbn]
          have h3 : st3.window_size = 1 := hwseq
          dsimp only [resultState]
          unfold readInvariant
          rw [h1, h2, h3]
          omega
        · rename_i st3 out3 heq3
          rw [heq3] at hlbn hlpr hwseq
          dsimp only at hlbn hlpr hwseq
          have h1 : lastAckBlock (sendError st3 ErrorCodes.NOT_DEFINED ("struct error")).1 =
              0 := by
            unfold sendError lastAckBlock
            dsimp only
            rw [show st3.last_packet_received = none from hlpr]
          have h2 : highestSentBlock (sendError st3 ErrorCodes.NOT_DEFINED
              ("struct error")).1 = 0 + i := by
            unfold sendError highestSentBlock
            dsimp only
            rw [hlbn]
          have h3 : (sendError st3 ErrorCodes.NOT_DEFINED ("struct error")).1.window_size =
              1 := hwseq
          dsimp only [resultState]
          unfold readInvariant
          rw [h1, h2, h3]
          omega
      · -- options: the loop never touches the block counters
        have hb := setupReadOptionsLoop_blocks options
          { remote_addr := a, src := src, written := [], mode := some SessionMode.read,
            block_size := 512, window_size := 1, last_packet_received := none,
            last_block_num := none, final_block_sent := false, retries := 0,
            max_retries := mr, done := false } [] []
        split
        · rename_i st4 out4 heq4
          rw [heq4] at hb
          dsimp only [loopResultState] at hb
          have h1 : lastAckBlock (sendError st4 ErrorCodes.NOT_DEFINED ("int raised")).1 =
              0 := by
            unfold sendError lastAckBlock
            dsimp only
            rw [show st4.last_packet_received = none from hb.1]
          have h2 : highestSentBlock (sendError st4 ErrorCodes.NOT_DEFINED
              ("int raised")).1 = 0 := by
            unfold sendError highestSentBlock
            dsimp only
            rw [show st4.last_block_num = none from hb.2]
          dsimp only [resultState]
          unfold readInvariant
          rw [h1, h2]
          omega
        · rename_i st4 u4 out4 heq4
          rw [heq4] at hb
          dsimp only [loopResultState] at hb
          have h1 : lastAckBlock st4 = 0 := by
            unfold lastAckBlock
            rw [show st4.last_packet_received = none from hb.1]
          have h2 : highestSentBlock st4 = 0 := by
            unfold highestSentBlock
            rw [show st4.last_block_num = none from hb.2]
          dsimp only [resultState]
          unfold readInvariant
          rw [h1, h2]
          omega
    · -- write request
      rename_i filename fmode options heq
      split
      · exact ⟨Nat.le_refl 0, Nat.zero_le _⟩
      · have hb := setupWriteOptionsLoop_blocks options
          { remote_addr := a, src := src, written := [], mode := some SessionMode.write,
            block_size := 512, window_size := 1, last_packet_received := none,
            last_block_num := none, final_block_sent := false, retries := 0,
            max_retries := mr, done := false } [] []
        split
        · rename_i st4 out4 heq4
          rw [heq4] at hb
          dsimp only [loopResultState] at hb
          have h1 : lastAckBlock (sendError st4 ErrorCodes.NOT_DEFINED ("int raised")).1 =
              0 := by
            unfold sendError lastAckBlock
            dsimp only
            rw [show st4.last_packet_received = none from hb.1]
          have h2 : highestSentBlock (sendError st4 ErrorCodes.NOT_DEFINED
              ("int raised")).1 = 0 := by
            unfold sendError highestSentBlock
            dsimp only
            rw [show st4.last_block_num = none from hb.2]
          dsimp only [resultState]
          unfold readInvariant
          rw [h1, h2]
          omega
        · rename_i st4 u4 out4 heq4
          rw [heq4] at hb
          dsimp only [loopResultState] at hb
          have h1 : lastAckBlock st4 = 0 := by
            unfold lastAckBlock
            rw [show st4.last_packet_received = none from hb.1]
          have h2 : highestSentBlock st4 = 0 := by
            unfold highestSentBlock
            rw [show st4.last_block_num = none from hb.2]
          dsimp only [resultState]
          unfold readInvariant
          rw [h1, h2]
          omega
    · -- not a request
      exact hinit
  · -- step preserves the invariant
    intro st source raw hmode hws hinv hno
    obtain ⟨addr, src2, wr2, mode2, bs, ws, lpr, lbn, fbs2, rt, mr, dn⟩ := st
    dsimp only at hmode hws hinv hno ⊢
    subst hmode
    unfold step
    by_cases hd : dn = true
    · rw [if_pos hd]
      exact hinv
    · rw [if_neg hd]
      by_cases hs : source = addr
      · rw [if_pos hs]
        split
        · exact hinv
        · rename_i pkt hdec
          dsimp only
          cases pkt with
          | ack n =>
            dsimp only
            by_cases hcond : (fbs2 = true ∧ lbn = some n)
            · rw [if_pos hcond]
              obtain ⟨hf2, hl2⟩ := hcond
              subst hl2
              exact ⟨Nat.le_refl n, Nat.le_add_right n ws⟩
            · rw [if_neg hcond, if_pos (Nat.le_refl n)]
              unfold send_read_data
              dsimp only
              rw [if_pos rfl]
              obtain ⟨i, hi1, hi2, hlbn, hlpr, hwseq⟩ :=
                sendReadDataLoop_sends ws hws
                  { remote_addr := addr, src := src2, written := wr2,
                    mode := some SessionMode.read, block_size := bs, window_size := ws,
                    last_packet_received := some n, last_block_num := lbn,
                    final_block_sent := fbs2, retries := 0, max_retries := mr, done := dn }
                  n [] (by have := hno n hdec; omega)
              split
              · rename_i st3 out3 heq3
                rw [heq3] at hlbn hlpr hwseq
                dsimp only at hlbn hlpr hwseq
                have h1 : lastAckBlock st3 = n := by
                  unfold lastAckBlock
                  rw [show st3.last_packet_received = some n from hlpr]
                have h2 : highestSentBlock st3 = n + i := by
                  unfold highestSentBlock
                  rw [hlbn]
                have h3 : st3.window_size = ws := hwseq
                dsimp only [resultState]
                unfold readInvariant
                rw [h1, h2, h3]
                omega
              · rename_i st3 out3 heq3
                rw [heq3] at hlbn hlpr hwseq
                dsimp only at hlbn hlpr hwseq
                have h1 : lastAckBlock (sendError st3 ErrorCodes.NOT_DEFINED
                    ("struct error")).1 = n := by
                  unfold sendError lastAckBlock
                  dsimp only
                  rw [show st3.last_packet_received = some n from hlpr]
                have h2 : highestSentBlock (sendError st3 ErrorCodes.NOT_DEFINED
                    ("struct error")).1 = n + i := by
                  unfold sendError highestSentBlock
                  dsimp only
                  rw [hlbn]
                have h3 : (sendError st3 ErrorCodes.NOT_DEFINED
                    ("struct error")).1.window_size = ws := hwseq
                dsimp only [resultState]
                unfold readInvariant
                rw [h1, h2, h3]
                omega
          | rrq filename fmode options => exact hinv
          | wrq filename fmode options => exact hinv
          | data bn payload => exact hinv
          | err code msg => exact hinv
          | oack options => exact hinv
      · rw [if_neg hs]
        exact hinv
  · -- timeout_handler preserves the invariant
    intro st hmode hinv
    obtain ⟨addr, src2, wr2, mode2, bs, ws, lpr, lbn, fbs2, rt, mr, dn⟩ := st
    dsimp only at hmode hinv ⊢
    subst hmode
    unfold timeout_handler
    by_cases hr : rt < mr
    · rw [if_pos hr]
      cases lpr with
      | none => exact hinv
      | some n =>
        dsimp only
        unfold send_read_data
        dsimp only
        rw [if_pos rfl]
        have hf := sendReadDataLoop_frame ws
          { remote_addr := addr, src := src2, written := wr2,
            mode := some SessionMode.read, block_size := bs, window_size := ws,
            last_packet_received := some n, last_block_num := lbn,
            final_block_sent := fbs2, retries := rt + 1, max_retries := mr, done := dn }
          n []
        rcases sendReadDataLoop_lastBlock ws
            { remote_addr := addr, src := src2, written := wr2,
              mode := some SessionMode.read, block_size := bs, window_size := ws,
              last_packet_received := some n, last_block_num := lbn,
              final_block_sent := fbs2, retries := rt + 1, max_retries := mr, done := dn }
            n [] with hsame | ⟨i, hi1, hi2, hupd⟩
        · split
          · rename_i st3 out3 heq3
            rw [heq3] at hf hsame
            dsimp only at hf hsame
            dsimp only [resultState]
            unfold readInvariant lastAckBlock highestSentBlock at hinv ⊢
            rw [show st3.last_packet_received = some n from hf.1,
              show st3.window_size = ws from hf.2, hsame]
            dsimp only at hinv ⊢
            omega
          · rename_i st3 out3 heq3
            rw [heq3] at hf hsame
            dsimp only at hf hsame
            dsimp only [resultState]
            unfold readInvariant lastAckBlock highestSentBlock at hinv ⊢
            rw [show st3.last_packet_received = some n from hf.1,
              show st3.window_size = ws from hf.2, hsame]
            dsimp only at hinv ⊢
            omega
        · split
          · rename_i st3 out3 heq3
            rw [heq3] at hf hupd
            dsimp only at hf hupd
            dsimp only [resultState]
            unfold readInvariant lastAckBlock highestSentBlock
            rw [show st3.last_packet_received = some n from hf.1,
              show st3.window_size = ws from hf.2, hupd]
            dsimp only
            omega
          · rename_i st3 out3 heq3
            rw [heq3] at hf hupd
            dsimp only at hf hupd
            dsimp only [resultState]
            unfold readInvariant lastAckBlock highestSentBlock
            rw [show st3.last_packet_received = some n from hf.1,
              show st3.window_size = ws from hf.2, hupd]
            dsimp only
            omega
    · rw [if_neg hr]
      exact hinv

/-- Witness for the amended C9: the timeout part at a concrete state. -/
theorem tftp_c9_witness :
    readInvariant (resultState (timeout_handler readState16)) :=
  tftp_c9_read_invariant.2.2 readState16 (by decide) (by decide)

end PxeTools
